import Mathlib

/-!
Verification of the TIFF/EXIF IFD decode engine of the rexif crate
(src/tiff.rs, src/types.rs, src/types_impl.rs, src/exifreadable.rs).

Byte buffers are modelled as `List Nat` (each element a byte value),
machine integers as `Nat`/`Int`.  Rust's `Option`-propagating bounds
checks (`slice.get(a..b)?`) are modelled with `Option`;  panics
(unchecked indexing, `panic!`) are modelled as the `.error ()` case of
`Except Unit`.  Modules of the crate that are not part of the analysed
sources (lowlevel.rs, ifdformat.rs, exif.rs, exifpost.rs, rational.rs)
are modelled from the specification; each such definition carries a
doc comment starting with "Modelled from the spec".
-/

/-- Rust panics (process aborts) are modelled as `.error ()`; a
normally returned value `v` is `.ok v`. -/
abbrev Panics (α : Type) : Type := Except Unit α

/-- Enumeration of EXIF tag namespaces (types.rs `Namespace`). -/
inductive Nspace where
  | Standard
  | Nikon
  | Canon
deriving DecidableEq

/-- IFD data formats (types.rs `IfdFormat`). -/
inductive IfdFormat where
  | Unknown
  | U8
  | Ascii
  | U16
  | U32
  | URational
  | I8
  | Undefined
  | I16
  | I32
  | IRational
  | F32
  | F64
deriving DecidableEq

/-- The low-level TIFF format code of each `IfdFormat` item
(the enum discriminants in types.rs). -/
def ifdformat_code : IfdFormat → Nat
  | .Unknown => 0
  | .U8 => 1
  | .Ascii => 2
  | .U16 => 3
  | .U32 => 4
  | .URational => 5
  | .I8 => 6
  | .Undefined => 7
  | .I16 => 8
  | .I32 => 9
  | .IRational => 10
  | .F32 => 11
  | .F64 => 12

/-- Convert an IFD format code to the IfdFormat enumeration
(types_impl.rs `ifdformat_new`). -/
def ifdformat_new (n : Nat) : IfdFormat :=
  if n = 1 then .U8
  else if n = 2 then .Ascii
  else if n = 3 then .U16
  else if n = 4 then .U32
  else if n = 5 then .URational
  else if n = 6 then .I8
  else if n = 7 then .Undefined
  else if n = 8 then .I16
  else if n = 9 then .I32
  else if n = 10 then .IRational
  else if n = 11 then .F32
  else if n = 12 then .F64
  else .Unknown

/-- Modelled from the spec: rational.rs is not under src/.  A rational
is "a numerator/denominator pair representing a ratio" (glossary);
`URational` carries unsigned 32-bit components. -/
structure URational where
  numerator : Nat
  denominator : Nat
deriving DecidableEq

/-- Modelled from the spec: rational.rs is not under src/.  `IRational`
carries signed 32-bit components. -/
structure IRational where
  numerator : Int
  denominator : Int
deriving DecidableEq

/-- Recognized EXIF tags (types.rs `ExifTag`).  Only the items needed by
the modelled descriptor table and by the directory walker are listed;
the remaining items of the source enumeration are never consulted by
the analysed code paths. -/
inductive ExifTag where
  | UnknownToMe
  | Orientation
  | ExifOffset
  | GPSOffset
deriving DecidableEq

/-- The `u32` discriminant of each `ExifTag` item (types.rs): the least
significant word is the tag code, the most significant the namespace. -/
def tagCode : ExifTag → Nat
  | .UnknownToMe => 0xffff
  | .Orientation => 0x0112
  | .ExifOffset => 0x8769
  | .GPSOffset => 0x8825

/-- Tag value variant type (types.rs `TagValue`).  ASCII text is kept as
its raw byte list; `F32`/`F64` elements are kept as their raw IEEE-754
bit patterns (`Nat`), since no analysed claim interprets float
arithmetic. -/
inductive TagValue where
  | U8 (v : List Nat)
  | Ascii (s : List Nat)
  | U16 (v : List Nat)
  | U32 (v : List Nat)
  | URational (v : List URational)
  | I8 (v : List Int)
  | Undefined (v : List Nat) (le : Bool)
  | I16 (v : List Int)
  | I32 (v : List Int)
  | IRational (v : List IRational)
  | F32 (v : List Nat)
  | F64 (v : List Nat)
  | Unknown (v : List Nat) (le : Bool)
  | Invalid (data : List Nat) (le : Bool) (fmt : Nat) (count : Nat)
deriving DecidableEq

/-- A parsed IFD entry (types.rs `IfdEntry`).  The source field
`namespace` is a Lean keyword and is rendered `nspace`. -/
structure IfdEntry where
  nspace : Nspace
  tag : Nat
  format : IfdFormat
  count : Nat
  data : List Nat
  ifd_data : List Nat
  ext_data : List Nat
  le : Bool
deriving DecidableEq

/-- A parsed EXIF tag (types.rs `ExifEntry`).  The source field
`namespace` is rendered `nspace`. -/
structure ExifEntry where
  nspace : Nspace
  ifd : IfdEntry
  tag : ExifTag
  value : TagValue
  unit : String
  value_more_readable : String
deriving DecidableEq

/-- Fatal parse errors (types.rs `ExifError`).  The `IoError` payload
(an `std::io::Error`) is irrelevant to the analysed code and elided. -/
inductive ExifError where
  | IoError
  | FileTypeUnknown
  | JpegWithoutExif (s : String)
  | TiffTruncated
  | TiffBadPreamble (s : String)
  | IfdTruncated
  | ExifIfdTruncated (s : String)
  | ExifIfdEntryNotFound
deriving DecidableEq

/-- Combine two bytes into a 16-bit value with the given endianness. -/
def byteU16 (le : Bool) (b0 b1 : Nat) : Nat :=
  if le then b1 * 256 + b0 else b0 * 256 + b1

/-- Combine four bytes into a 32-bit value with the given endianness. -/
def byteU32 (le : Bool) (b0 b1 b2 b3 : Nat) : Nat :=
  if le then ((b3 * 256 + b2) * 256 + b1) * 256 + b0
  else ((b0 * 256 + b1) * 256 + b2) * 256 + b3

/-- Modelled from the spec: lowlevel.rs (`read_u16`) is not under src/.
The binary layout (spec section 6) defines a 2-byte big- or
little-endian read; calling it on a slice with fewer than 2 bytes
cannot perform the read and faults (the byteorder implementation the
call sites assume panics there). -/
def read_u16 (le : Bool) (raw : List Nat) : Panics Nat :=
  match raw with
  | b0 :: b1 :: _ => .ok (byteU16 le b0 b1)
  | _ => .error ()

/-- Modelled from the spec: lowlevel.rs (`read_u32`) is not under src/.
A 4-byte big- or little-endian read; fewer than 4 bytes is a fault. -/
def read_u32 (le : Bool) (raw : List Nat) : Panics Nat :=
  match raw with
  | b0 :: b1 :: b2 :: b3 :: _ => .ok (byteU32 le b0 b1 b2 b3)
  | _ => .error ()

/-- Pure spec-side reader: the 16-bit value stored at offset `o` of
buffer `c` (out-of-range bytes read as 0; only consulted under bounds
hypotheses). -/
def readU16at (le : Bool) (c : List Nat) (o : Nat) : Nat :=
  byteU16 le (c.getD o 0) (c.getD (o + 1) 0)

/-- Pure spec-side reader: the 32-bit value stored at offset `o`. -/
def readU32at (le : Bool) (c : List Nat) (o : Nat) : Nat :=
  byteU32 le (c.getD o 0) (c.getD (o + 1) 0) (c.getD (o + 2) 0) (c.getD (o + 3) 0)

/-- Rust's checked slice access `buf.get(start..start+len)`: the
sublist if fully in range, `none` otherwise. -/
def listSlice (l : List Nat) (start len : Nat) : Option (List Nat) :=
  if start + len ≤ l.length then some ((l.drop start).take len) else none

/-- Size of an individual element of an IFD entry
(types_impl.rs `IfdEntry::size`). -/
def IfdEntry.size (e : IfdEntry) : Nat :=
  match e.format with
  | .U8 => 1
  | .Ascii => 1
  | .U16 => 2
  | .U32 => 4
  | .URational => 8
  | .I8 => 1
  | .Undefined => 1
  | .I16 => 2
  | .I32 => 4
  | .IRational => 8
  | .F32 => 4
  | .F64 => 8
  | .Unknown => 1

/-- Total length of the whole IFD entry, element count times element
size (types_impl.rs `IfdEntry::length`). -/
def IfdEntry.length (e : IfdEntry) : Nat :=
  e.size * e.count

/-- True if the data is contained within the IFD structure
(types_impl.rs `IfdEntry::in_ifd`). -/
def IfdEntry.in_ifd (e : IfdEntry) : Bool :=
  decide (e.length ≤ 4)

/-- Casts IFD entry data into an offset (types_impl.rs
`IfdEntry::data_as_offset`): `read_u32(self.le, &self.ifd_data[0..4])`.
The unchecked slice `[0..4]` faults when `ifd_data` has fewer than
4 bytes. -/
def IfdEntry.data_as_offset (e : IfdEntry) : Panics Nat :=
  if 4 ≤ e.ifd_data.length then read_u32 e.le (e.ifd_data.take 4) else .error ()

/-- Copies entry data from the 4-byte inline slot, or from the window
of the image buffer the slot points at (types_impl.rs
`IfdEntry::copy_data`).  Returns the updated entry and the source's
boolean result. -/
def IfdEntry.copy_data (e : IfdEntry) (contents : List Nat) : Panics (IfdEntry × Bool) :=
  if e.in_ifd then .ok ({ e with data := e.ifd_data }, true)
  else
    match e.data_as_offset with
    | .error u => .error u
    | .ok offset =>
      match listSlice contents offset e.length with
      | some ext => .ok ({ e with ext_data := ext, data := ext }, true)
      | none => .ok (e, false)

/-- The spec's element-size table, stated in the spec's own grouping
(spec section 4.2): 1 byte for byte/ASCII/signed-byte/opaque classes,
2 for 16-bit integers, 4 for 32-bit integers and single floats, 8 for
rationals and double floats.  Compared against `IfdEntry.size`. -/
def specElemSize (f : IfdFormat) : Nat :=
  if f = .U8 ∨ f = .Ascii ∨ f = .I8 ∨ f = .Undefined ∨ f = .Unknown then 1
  else if f = .U16 ∨ f = .I16 then 2
  else if f = .U32 ∨ f = .I32 ∨ f = .F32 then 4
  else 8

/-- The byte window `buffer[offset..offset+length]` an offset-indirected
entry's payload is copied from. -/
def payloadWindow (e : IfdEntry) (contents : List Nat) : List Nat :=
  (contents.drop (readU32at e.le e.ifd_data 0)).take e.length

/-- Symbolic model of the `f64` values produced by `TagValue::to_f64`:
each constructor records exactly which conversion the source performs
(integer widening, `f32`/`f64` passthrough of a bit pattern, or a
rational's numerator/denominator division), without interpreting
IEEE-754 arithmetic. -/
inductive F64Repr where
  | ofInt (i : Int)
  | ofF32bits (b : Nat)
  | ofF64bits (b : Nat)
  | ratio (numerator denominator : Int)
deriving DecidableEq

/-- Get value as an integer; out of bounds indexes and invalid types
return none (types.rs `TagValue::to_i64`). -/
def TagValue.to_i64 (v : TagValue) (index : Nat) : Option Int :=
  match v with
  | .U8 l => (l.get? index).map Int.ofNat
  | .U16 l => (l.get? index).map Int.ofNat
  | .U32 l => (l.get? index).map Int.ofNat
  | .I8 l => l.get? index
  | .I16 l => l.get? index
  | .I32 l => l.get? index
  | _ => none

/-- Get value as a floating-point number; out of bounds indexes and
invalid types return none (types.rs `TagValue::to_f64`).  Rationals go
through `URational::value` / `IRational::value`, i.e. the division
numerator/denominator, recorded symbolically. -/
def TagValue.to_f64 (v : TagValue) (index : Nat) : Option F64Repr :=
  match v with
  | .U8 l => (l.get? index).map (fun n => .ofInt (Int.ofNat n))
  | .U16 l => (l.get? index).map (fun n => .ofInt (Int.ofNat n))
  | .U32 l => (l.get? index).map (fun n => .ofInt (Int.ofNat n))
  | .I8 l => (l.get? index).map .ofInt
  | .I16 l => (l.get? index).map .ofInt
  | .I32 l => (l.get? index).map .ofInt
  | .F32 l => (l.get? index).map .ofF32bits
  | .F64 l => (l.get? index).map .ofF64bits
  | .IRational l => (l.get? index).map (fun r => .ratio r.numerator r.denominator)
  | .URational l => (l.get? index).map (fun r => .ratio (Int.ofNat r.numerator) (Int.ofNat r.denominator))
  | _ => none

/-- The spec-side class of integer variants accepted by `to_i64`. -/
def isIntegerValue : TagValue → Bool
  | .U8 _ | .U16 _ | .U32 _ | .I8 _ | .I16 _ | .I32 _ => true
  | _ => false

/-- The spec-side class of numeric variants accepted by `to_f64`. -/
def isNumericValue : TagValue → Bool
  | .U8 _ | .U16 _ | .U32 _ | .I8 _ | .I16 _ | .I32 _
  | .F32 _ | .F64 _ | .URational _ | .IRational _ => true
  | _ => false

/-- Number of elements stored in a variant's array. -/
def tvCount : TagValue → Nat
  | .U8 l => l.length
  | .Ascii l => l.length
  | .U16 l => l.length
  | .U32 l => l.length
  | .URational l => l.length
  | .I8 l => l.length
  | .Undefined l _ => l.length
  | .I16 l => l.length
  | .I32 l => l.length
  | .IRational l => l.length
  | .F32 l => l.length
  | .F64 l => l.length
  | .Unknown l _ => l.length
  | .Invalid l _ _ _ => l.length

/-- Decode `count` 16-bit elements left-to-right (modelled from the
spec: lowlevel.rs `read_u16_array` is not under src/; "element-array
decoding reads left-to-right using the entry's endianness flag",
spec section 4.4). -/
def read_u16_array (le : Bool) : Nat → List Nat → List Nat
  | 0, _ => []
  | c + 1, b0 :: b1 :: rest => byteU16 le b0 b1 :: read_u16_array le c rest
  | _ + 1, _ => []

/-- Decode `count` 32-bit elements left-to-right (modelled from the
spec, as `read_u16_array`). -/
def read_u32_array (le : Bool) : Nat → List Nat → List Nat
  | 0, _ => []
  | c + 1, b0 :: b1 :: b2 :: b3 :: rest => byteU32 le b0 b1 b2 b3 :: read_u32_array le c rest
  | _ + 1, _ => []

/-- Decode `count` 64-bit elements left-to-right as raw bit patterns
(modelled from the spec, as `read_u16_array`). -/
def read_u64_array (le : Bool) : Nat → List Nat → List Nat
  | 0, _ => []
  | c + 1, b0 :: b1 :: b2 :: b3 :: b4 :: b5 :: b6 :: b7 :: rest =>
    (if le then
      byteU32 le b4 b5 b6 b7 * 4294967296 + byteU32 le b0 b1 b2 b3
    else
      byteU32 le b0 b1 b2 b3 * 4294967296 + byteU32 le b4 b5 b6 b7) :: read_u64_array le c rest
  | _ + 1, _ => []

/-- Two's-complement reinterpretation of an 8-bit value. -/
def sint8 (b : Nat) : Int :=
  if b % 256 < 128 then (b % 256 : Nat) else (b % 256 : Nat) - 256

/-- Two's-complement reinterpretation of a 16-bit value. -/
def sint16 (v : Nat) : Int :=
  if v % 65536 < 32768 then (v % 65536 : Nat) else (v % 65536 : Nat) - 65536

/-- Two's-complement reinterpretation of a 32-bit value. -/
def sint32 (v : Nat) : Int :=
  if v % 4294967296 < 2147483648 then (v % 4294967296 : Nat)
  else (v % 4294967296 : Nat) - 4294967296

/-- Rust's `as i32` cast of a `u32` value. -/
def i32_of_u32 (n : Nat) : Int := sint32 n

/-- Decode `count` unsigned rationals (numerator then denominator,
each 4 bytes; modelled from the spec's rational layout). -/
def read_urational_array (le : Bool) : Nat → List Nat → List URational
  | 0, _ => []
  | c + 1, data =>
    match read_u32_array le 2 data with
    | [n, d] => { numerator := n, denominator := d } :: read_urational_array le c (data.drop 8)
    | _ => []

/-- Decode `count` signed rationals (modelled from the spec). -/
def read_irational_array (le : Bool) : Nat → List Nat → List IRational
  | 0, _ => []
  | c + 1, data =>
    match read_u32_array le 2 data with
    | [n, d] => { numerator := sint32 n, denominator := sint32 d } :: read_irational_array le c (data.drop 8)
    | _ => []

/-- Modelled from the spec: ifdformat.rs (`tag_value_new`) is not under
src/.  Spec section 4.4 step 1: build a `TagValue` purely from format
code, raw bytes and the entry's own endianness; if the declared
count/format combination implies a byte length inconsistent with the
available bytes, the value becomes the structurally-invalid variant
with raw bytes, endianness, format code and count preserved. -/
def tag_value_new (f : IfdEntry) : TagValue :=
  if f.data.length < f.length then
    .Invalid f.data f.le (ifdformat_code f.format) f.count
  else
    match f.format with
    | .U8 => .U8 (f.data.take f.count)
    | .Ascii => .Ascii (f.data.take f.count)
    | .U16 => .U16 (read_u16_array f.le f.count f.data)
    | .U32 => .U32 (read_u32_array f.le f.count f.data)
    | .URational => .URational (read_urational_array f.le f.count f.data)
    | .I8 => .I8 ((f.data.take f.count).map sint8)
    | .Undefined => .Undefined (f.data.take f.count) f.le
    | .I16 => .I16 ((read_u16_array f.le f.count f.data).map sint16)
    | .I32 => .I32 ((read_u32_array f.le f.count f.data).map sint32)
    | .IRational => .IRational (read_irational_array f.le f.count f.data)
    | .F32 => .F32 (read_u32_array f.le f.count f.data)
    | .F64 => .F64 (read_u64_array f.le f.count f.data)
    | .Unknown => .Unknown f.data f.le

/-- Modelled from the spec: ifdformat.rs (`numarray_to_string`) is not
under src/.  Renders a numeric array; a single item stands alone,
several are comma-separated.  The exact text is immaterial to the
claims, which only compare equal stringifications. -/
def numarray_to_string (xs : List String) : String :=
  match xs with
  | [x] => x
  | _ => String.intercalate ", " xs

/-- Permissive rendering of ASCII payload bytes as text
(spec section 4.4: "ASCII is decoded permissively as text"). -/
def asciiStr (l : List Nat) : String :=
  String.mk (l.map Char.ofNat)

/-- Display of an unsigned rational value.  The crate prints the
IEEE-754 quotient; its decimal rendering is abstracted by the exact
numerator/denominator pair, which determines it. -/
def ratStrU (r : URational) : String :=
  toString r.numerator ++ "/" ++ toString r.denominator

/-- Display of a signed rational value (as `ratStrU`). -/
def ratStrI (r : IRational) : String :=
  toString r.numerator ++ "/" ++ toString r.denominator

/-- Display of a raw float bit pattern.  IEEE-754 decimal rendering is
abstracted; the bit pattern determines it. -/
def floatStr (b : Nat) : String :=
  "float:" ++ toString b

/-- types_impl.rs `impl fmt::Display for TagValue`: the default
stringification of a tag value. -/
def tagValue_display : TagValue → String
  | .Ascii s => asciiStr s
  | .U16 v => numarray_to_string (v.map toString)
  | .I16 v => numarray_to_string (v.map toString)
  | .U8 v => numarray_to_string (v.map toString)
  | .I8 v => numarray_to_string (v.map toString)
  | .U32 v => numarray_to_string (v.map toString)
  | .I32 v => numarray_to_string (v.map toString)
  | .F32 v => numarray_to_string (v.map floatStr)
  | .F64 v => numarray_to_string (v.map floatStr)
  | .URational v => numarray_to_string (v.map ratStrU)
  | .IRational v => numarray_to_string (v.map ratStrI)
  | .Undefined v _ => numarray_to_string (v.map toString)
  | .Unknown _ _ => "<unknown blob>"
  | .Invalid _ _ _ _ => "Invalid"

/-- exifreadable.rs `strpass`: no-op readable function, passes the
default stringification through.  (Total in the source.) -/
def strpass (_ : TagValue) (s : String) : Panics String :=
  .ok s

/-- exifreadable.rs `nop`: no-op readable function used for the
catch-all descriptor row.  (Total in the source.) -/
def nop (_ : TagValue) (s : String) : Panics String :=
  .ok s

/-- exifreadable.rs `orientation`.  `v[0]` on an empty array and the
catch-all `panic!(INV)` arm are faults. -/
def orientation (e : TagValue) (_ : String) : Panics String :=
  match e with
  | .U16 [] => .error ()
  | .U16 (n :: _) =>
    if n = 1 then .ok "Straight"
    else if n = 3 then .ok "Upside down"
    else if n = 6 then .ok "Rotated to left"
    else if n = 8 then .ok "Rotated to right"
    else if n = 9 then .ok "Undefined"
    else .ok ("Unknown (" ++ toString n ++ ")")
  | _ => .error ()

/-- exifreadable.rs `rational_value`: prints `v[0].value()`; any other
variant hits `panic!(INV)`. -/
def rational_value (e : TagValue) (_ : String) : Panics String :=
  match e with
  | .URational (r :: _) => .ok (ratStrU r)
  | .IRational (r :: _) => .ok (ratStrI r)
  | _ => .error ()

/-- exifreadable.rs `dms`: formats `v[0]`, `v[1]`, `v[2]` of a
`URational` array as degrees/minutes/seconds; fewer than three
elements or any other variant is a fault.  Float formatting is
abstracted by the rational components that determine it. -/
def dms (e : TagValue) (_ : String) : Panics String :=
  match e with
  | .URational (deg :: mn :: sec :: _) =>
    if deg.denominator = 1 ∧ mn.denominator = 1 then
      .ok (ratStrU deg ++ " deg " ++ ratStrU mn ++ " min " ++ ratStrU sec ++ " sec")
    else if deg.denominator = 1 then
      .ok (ratStrU deg ++ " deg " ++ ratStrU mn ++ "+" ++ ratStrU sec ++ "/60 min")
    else
      .ok (ratStrU deg ++ "+" ++ ratStrU mn ++ "/60+" ++ ratStrU sec ++ "/3600 deg")
  | _ => .error ()

/-- One row of the tag descriptor table: resolved tag identity, unit,
expected format, expected count range, readable-string formatter
(the tuple returned by `tag_to_exif`). -/
structure ExifTagRow where
  tag : ExifTag
  unit : String
  format : IfdFormat
  min_count : Int
  max_count : Int
  more_readable : TagValue → Panics String

/-- Modelled from the spec: the tag-code-to-schema lookup table
(exif.rs `tag_to_exif`) is an external collaborator (spec sections 2
and 4.4) and is not under src/.  The rows exercised by the analysed
claims are included (the canonical orientation tag and the two
sub-directory pointer tags); every other code maps to the catch-all
unrecognized row, exactly as the source's `_` arm does.  tiff.rs
applies a row's formatter to the typed value alone; the catalog
functions of exifreadable.rs additionally receive a readable string,
supplied here as the value's default stringification.
This is the row of the canonical orientation tag. -/
def rowOrientation : ExifTagRow :=
  { tag := .Orientation, unit := "none", format := .U16,
    min_count := 1, max_count := 1,
    more_readable := fun v => orientation v (tagValue_display v) }

/-- The descriptor row of the Exif sub-directory pointer tag. -/
def rowExifOffset : ExifTagRow :=
  { tag := .ExifOffset, unit := "byte offset", format := .U32,
    min_count := 1, max_count := 1,
    more_readable := fun v => strpass v (tagValue_display v) }

/-- The descriptor row of the GPS sub-directory pointer tag. -/
def rowGPSOffset : ExifTagRow :=
  { tag := .GPSOffset, unit := "byte offset", format := .U32,
    min_count := 1, max_count := 1,
    more_readable := fun v => strpass v (tagValue_display v) }

/-- The catch-all unrecognized descriptor row (the table's `_` arm). -/
def rowUnknown : ExifTagRow :=
  { tag := .UnknownToMe, unit := "Unknown", format := .Unknown,
    min_count := -1, max_count := -1,
    more_readable := fun v => nop v (tagValue_display v) }

def tag_to_exif (tag : Nat) : ExifTagRow :=
  if tag = 0x0112 then rowOrientation
  else if tag = 0x8769 then rowExifOffset
  else if tag = 0x8825 then rowGPSOffset
  else rowUnknown

/-- The provisional `ExifEntry` built at the top of `parse_exif_entry`
(tiff.rs lines 16-23), also the entry returned on the
unknown-tag and downgrade paths. -/
def defaultExifEntry (f : IfdEntry) : ExifEntry :=
  { nspace := f.nspace, ifd := f, tag := .UnknownToMe,
    value := tag_value_new f, unit := "Unknown",
    value_more_readable := tagValue_display (tag_value_new f) }

/-- Warning recorded on a format mismatch (tiff.rs lines 47-50).
The rendered text assembles the same components as the source's
`format!`. -/
def formatWarning (f : IfdEntry) (expected : IfdFormat) : String :=
  "EXIF tag " ++ toString f.tag ++ ", expected format " ++
    toString (ifdformat_code expected) ++ ", found " ++ toString (ifdformat_code f.format)

/-- Warning recorded on a count out of range (tiff.rs lines 55-58). -/
def countWarning (f : IfdEntry) (mn mx : Int) : String :=
  "EXIF tag " ++ toString f.tag ++ ", expected count " ++ toString mn ++
    ".." ++ toString mx ++ " found " ++ toString f.count

/-- Parse of a raw IFD entry into EXIF data (tiff.rs
`parse_exif_entry`).  The shared warnings vector is threaded as state;
the source's `panic!("Internal error")` is the fault case. -/
def parse_exif_entry (f : IfdEntry) (warnings : List String) : Panics (ExifEntry × List String) :=
  let e := defaultExifEntry f
  let row := tag_to_exif f.tag
  if row.tag = ExifTag.UnknownToMe then .ok (e, warnings)
  else if tagCode row.tag % 65536 ≠ f.tag
      ∨ (row.min_count = -1 ∧ (row.format ≠ .Ascii ∧ row.format ≠ .Undefined ∧ row.format ≠ .Unknown))
      ∨ (row.min_count ≠ -1 ∧ row.format = .Ascii) then
    .error ()
  else if row.format ≠ f.format then
    .ok (e, warnings ++ [formatWarning f row.format])
  else if row.min_count ≠ -1 ∧ (i32_of_u32 f.count < row.min_count ∨ i32_of_u32 f.count > row.max_count) then
    .ok (e, warnings ++ [countWarning f row.min_count row.max_count])
  else
    match row.more_readable e.value with
    | .error u => .error u
    | .ok s => .ok ({ e with tag := row.tag, unit := row.unit, value_more_readable := s }, warnings)

/-- The loop body of `parse_ifd` (tiff.rs lines 78-100): parses the
12-byte records at indices `i`, `i+1`, ... (`rem` of them) of
`contents`.  A failing bounds-checked slice access makes the whole
parse yield no result (the source's `?` operator); the fixed-width
reads on the exact 2- and 4-byte slices are the source's
`read_u16`/`read_u32` calls. -/
def parse_ifd_loop (le : Bool) (contents : List Nat) : Nat → Nat → Panics (Option (List IfdEntry))
  | 0, _ => .ok (some [])
  | rem + 1, i =>
    match listSlice contents (i * 12) 2, listSlice contents (i * 12 + 2) 2,
        listSlice contents (i * 12 + 4) 4, listSlice contents (i * 12 + 8) 4 with
    | some s1, some s2, some s3, some sd =>
      match read_u16 le s1 with
      | .error u => .error u
      | .ok tag =>
        match read_u16 le s2 with
        | .error u => .error u
        | .ok fmt =>
          match read_u32 le s3 with
          | .error u => .error u
          | .ok cnt =>
            match parse_ifd_loop le contents rem (i + 1) with
            | .error u => .error u
            | .ok none => .ok none
            | .ok (some rest) =>
              .ok (some ({ nspace := .Standard, tag := tag, format := ifdformat_new fmt,
                           count := cnt, ifd_data := sd, le := le,
                           ext_data := [], data := [] } :: rest))
    | _, _, _, _ => .ok none

/-- Superficial parse of an IFD (tiff.rs `parse_ifd`).  For a root
(non-sub) directory the source then evaluates
`read_u32(le, &contents[count as usize * 12..])`: the slice indexing
and the 4-byte read are unchecked, so a buffer shorter than
`count*12 + 4` is a fault rather than `None`. -/
def parse_ifd (subifd le : Bool) (count : Nat) (contents : List Nat) : Panics (Option (List IfdEntry × Nat)) :=
  match parse_ifd_loop le contents count 0 with
  | .error u => .error u
  | .ok none => .ok none
  | .ok (some entries) =>
    if subifd then .ok (some (entries, 0))
    else if count * 12 ≤ contents.length then
      match read_u32 le (contents.drop (count * 12)) with
      | .error u => .error u
      | .ok next_ifd => .ok (some (entries, next_ifd))
    else .error ()

/-- The per-entry loop of `parse_exif_ifd` (tiff.rs lines 147-154):
resolve each entry's payload with `copy_data`, dropping the entry when
that fails, and decode the survivors with `parse_exif_entry`,
appending to the accumulator. -/
def exif_ifd_loop (contents : List Nat) : List IfdEntry → List ExifEntry → List String → Panics (List ExifEntry × List String)
  | [], es, ws => .ok (es, ws)
  | e :: rest, es, ws =>
    match e.copy_data contents with
    | .error u => .error u
    | .ok (e', ok) =>
      if ok then
        match parse_exif_entry e' ws with
        | .error u => .error u
        | .ok (ee, ws') => exif_ifd_loop contents rest (es ++ [ee]) ws'
      else exif_ifd_loop contents rest es ws

/-- Deep parse of an IFD (tiff.rs `parse_exif_ifd`): grabs EXIF data
from the directory at `ioffset`.  The `&mut` accumulator and warnings
vectors are threaded as state. -/
def parse_exif_ifd (le : Bool) (contents : List Nat) (ioffset : Nat)
    (exif_entries : List ExifEntry) (warnings : List String) :
    Panics (Except ExifError Unit × List ExifEntry × List String) :=
  let offset := ioffset
  if contents.length < offset + 2 then
    .ok (.error (.ExifIfdTruncated "Truncated at dir entry count"), exif_entries, warnings)
  else
    match listSlice contents offset 2 with
    | none => .ok (.error .IfdTruncated, exif_entries, warnings)
    | some s =>
      match read_u16 le s with
      | .error u => .error u
      | .ok count =>
        let ifd_length := count * 12
        if contents.length < offset + 2 + ifd_length then
          .ok (.error (.ExifIfdTruncated "Truncated at dir listing"), exif_entries, warnings)
        else
          match listSlice contents (offset + 2) ifd_length with
          | none => .ok (.error .IfdTruncated, exif_entries, warnings)
          | some ifd_content =>
            match parse_ifd true le count ifd_content with
            | .error u => .error u
            | .ok none => .ok (.error .IfdTruncated, exif_entries, warnings)
            | .ok (some (ifd, _)) =>
              match exif_ifd_loop contents ifd exif_entries warnings with
              | .error u => .error u
              | .ok (es, ws) => .ok (.ok (), es, ws)

/-- Modelled from the spec: exifpost.rs (`exif_postprocessing`) is an
external collaborator not under src/.  Per spec section 4.5 it may
rewrite only the entry's readable-string field, reading the complete
entry list; its observable effect is the string-valued function `g`. -/
def exif_postprocessing (g : ExifEntry → List ExifEntry → String) (entry : ExifEntry)
    (all : List ExifEntry) : ExifEntry :=
  { entry with value_more_readable := g entry all }

/-- The postprocessing loop of `parse_ifds` (tiff.rs lines 218-220):
each accumulated entry is rewritten in place against the cloned
complete list. -/
def post_loop (g : ExifEntry → List ExifEntry → String) (copy : List ExifEntry) : List ExifEntry → List ExifEntry
  | [] => []
  | e :: rest => exif_postprocessing g e copy :: post_loop g copy rest

/-- Instrumented shadow of `post_loop`: records, in order, each
invocation of the postprocessing collaborator as the pair of the entry
handed over mutably and the read-only list handed along. -/
def post_loop_calls (copy : List ExifEntry) : List ExifEntry → List (ExifEntry × List ExifEntry)
  | [] => []
  | e :: rest => (e, copy) :: post_loop_calls copy rest

/-- The sub-directory discovery loop of `parse_ifds` (tiff.rs lines
193-212): every raw root entry whose tag is the Exif or GPS
sub-directory pointer code is followed; a pointer past end-of-buffer
or a failing sub-directory parse aborts with the error. -/
def sub_ifd_loop (le : Bool) (contents : List Nat) : List IfdEntry → List ExifEntry → List String → Panics (Except ExifError Unit × List ExifEntry × List String)
  | [], es, ws => .ok (.ok (), es, ws)
  | e :: rest, es, ws =>
    if e.tag ≠ tagCode ExifTag.ExifOffset % 65536 ∧ e.tag ≠ tagCode ExifTag.GPSOffset % 65536 then
      sub_ifd_loop le contents rest es ws
    else
      match e.data_as_offset with
      | .error u => .error u
      | .ok exif_offset =>
        if contents.length < exif_offset then
          .ok (.error (.ExifIfdTruncated "Exif SubIFD goes past EOF"), es, ws)
        else
          match parse_exif_ifd le contents exif_offset es ws with
          | .error u => .error u
          | .ok (.error err, es', ws') => .ok (.error err, es', ws')
          | .ok (.ok _, es', ws') => sub_ifd_loop le contents rest es' ws'

/-- Parses IFD0 and looks for the SubIFD or GPS IFD within IFD0
(tiff.rs `parse_ifds`).  `g` is the observable effect of the external
postprocessing collaborator. -/
def parse_ifds (g : ExifEntry → List ExifEntry → String) (le : Bool) (ifd0_offset : Nat)
    (contents : List Nat) (warnings : List String) :
    Panics (Except ExifError (List ExifEntry) × List String) :=
  match parse_exif_ifd le contents ifd0_offset [] warnings with
  | .error u => .error u
  | .ok (.error e, _, w1) => .ok (.error e, w1)
  | .ok (.ok _, exif_entries, w1) =>
    match listSlice contents ifd0_offset 2 with
    | none => .ok (.error .IfdTruncated, w1)
    | some s =>
      match read_u16 le s with
      | .error u => .error u
      | .ok count =>
        let ifd_length := count * 12 + 4
        match listSlice contents (ifd0_offset + 2) ifd_length with
        | none => .ok (.error .IfdTruncated, w1)
        | some ifd_content =>
          match parse_ifd false le count ifd_content with
          | .error u => .error u
          | .ok none => .ok (.error .IfdTruncated, w1)
          | .ok (some (ifd, _)) =>
            match sub_ifd_loop le contents ifd exif_entries w1 with
            | .error u => .error u
            | .ok (.error e, _, w2) => .ok (.error e, w2)
            | .ok (.ok _, es, w2) =>
              let exif_entries_copy := es
              .ok (.ok (post_loop g exif_entries_copy es), w2)

/-- The little-endian preamble test of `parse_tiff` (tiff.rs line 231):
`I`, `I`, 42, 0. -/
def preLE (c : List Nat) : Bool :=
  c.getD 0 0 == 73 && c.getD 1 0 == 73 && c.getD 2 0 == 42 && c.getD 3 0 == 0

/-- The big-endian preamble test of `parse_tiff` (tiff.rs line 234):
`M`, `M`, 0, 42. -/
def preBE (c : List Nat) : Bool :=
  c.getD 0 0 == 77 && c.getD 1 0 == 77 && c.getD 2 0 == 0 && c.getD 3 0 == 42

/-- Hexadecimal rendering of a byte, as `format!("{:x}", b)`. -/
def hexStr (n : Nat) : String :=
  String.mk (Nat.toDigits 16 n)

/-- The bad-preamble message of `parse_tiff` (tiff.rs lines 237-240),
carrying the four offending bytes. -/
def preambleMsg (c : List Nat) : String :=
  "Preamble is " ++ hexStr (c.getD 0 0) ++ " " ++ hexStr (c.getD 1 0) ++ " " ++
    hexStr (c.getD 2 0) ++ " " ++ hexStr (c.getD 3 0)

/-- Parse a TIFF image in order to get the IFDs and then the EXIF data
(tiff.rs `parse_tiff`). -/
def parse_tiff (g : ExifEntry → List ExifEntry → String) (contents : List Nat)
    (warnings : List String) : Panics (Except ExifError (List ExifEntry) × List String) :=
  if contents.length < 8 then .ok (.error .TiffTruncated, warnings)
  else if preLE contents then
    match read_u32 true ((contents.drop 4).take 4) with
    | .error u => .error u
    | .ok offset => parse_ifds g true offset contents warnings
  else if preBE contents then
    match read_u32 false ((contents.drop 4).take 4) with
    | .error u => .error u
    | .ok offset => parse_ifds g false offset contents warnings
  else .ok (.error (.TiffBadPreamble (preambleMsg contents)), warnings)

/-- The raw entry the directory parser builds from the 12-byte record
at index `i` of `contents` (spec-side characterization of
`parse_ifd_loop`'s output). -/
def mkEntryAt (le : Bool) (contents : List Nat) (i : Nat) : IfdEntry :=
  { nspace := .Standard, tag := readU16at le contents (i * 12),
    format := ifdformat_new (readU16at le contents (i * 12 + 2)),
    count := readU32at le contents (i * 12 + 4),
    ifd_data := (contents.drop (i * 12 + 8)).take 4,
    le := le, ext_data := [], data := [] }

/-- The raw entries at indices `i`, `i+1`, ... (`rem` of them). -/
def idxEntries (le : Bool) (contents : List Nat) : Nat → Nat → List IfdEntry
  | 0, _ => []
  | rem + 1, i => mkEntryAt le contents i :: idxEntries le contents rem (i + 1)

/-- The decoded entries and warnings the deep parse of the directory at
offset `o` of `c` contributes to its accumulators (spec-side
characterization of a successful `parse_exif_ifd`). -/
def dirDecodedPair (le : Bool) (c : List Nat) (o : Nat) : List ExifEntry × List String :=
  let cnt := readU16at le c o
  let content := (c.drop (o + 2)).take (cnt * 12)
  match exif_ifd_loop c (idxEntries le content cnt 0) [] [] with
  | .ok p => p
  | .error _ => ([], [])

/-- Whether a raw entry's tag is one of the two sub-directory pointer
codes followed by the walker. -/
def isPtrTag (e : IfdEntry) : Bool :=
  e.tag == tagCode ExifTag.ExifOffset % 65536 || e.tag == tagCode ExifTag.GPSOffset % 65536

/-- The payload offset stored in a raw entry's 4-byte inline slot. -/
def entryOffset (e : IfdEntry) : Nat :=
  readU32at e.le e.ifd_data 0

/-- The raw root-directory entries the walker re-scans for
sub-directory pointers: parsed from the window of `count*12 + 4` bytes
after the entry count at offset `o`. -/
def rootScanEntries (le : Bool) (c : List Nat) (o : Nat) : List IfdEntry :=
  idxEntries le ((c.drop (o + 2)).take (readU16at le c o * 12 + 4)) (readU16at le c o) 0

/-- The root entries that are sub-directory pointers, in directory
order. -/
def ptrEntries (le : Bool) (c : List Nat) (o : Nat) : List IfdEntry :=
  (rootScanEntries le c o).filter isPtrTag

/-- The spec's fatal conditions for one followed sub-directory pointer
(spec section 7): the pointer resolves past buffer end, or the pointed
directory's entry count or implied listing length runs past buffer
end. -/
def subFatal (c : List Nat) (le : Bool) (e : IfdEntry) : Bool :=
  decide (c.length < entryOffset e) ||
  decide (c.length < entryOffset e + 2) ||
  decide (c.length < entryOffset e + 2 + readU16at le c (entryOffset e) * 12)

/-- The spec's fatal conditions for the whole directory walk rooted at
offset `o`: the root directory's entry count or implied listing length
(its `count*12` records plus the root's trailing 4-byte next-directory
offset) runs past buffer end, or some discovered sub-directory pointer
is fatal. -/
def ifdsFatal (le : Bool) (c : List Nat) (o : Nat) : Bool :=
  decide (c.length < o + 2) ||
  decide (c.length < o + 2 + readU16at le c o * 12 + 4) ||
  (ptrEntries le c o).any (subFatal c le)

/-- The spec's fatal conditions for the entire decode (spec section 7):
buffer under 8 bytes; preamble matching neither byte-order marker;
otherwise the walk rooted at the offset read after the preamble. -/
def tiffFatal (c : List Nat) : Bool :=
  decide (c.length < 8) ||
  (if preLE c then ifdsFatal true c (readU32at true c 4)
   else if preBE c then ifdsFatal false c (readU32at false c 4)
   else true)

/-- The complete accumulator a successful walk merges before
postprocessing: the root directory's decoded entries followed by each
followed sub-directory's decoded entries, in discovery order. -/
def mergedSpec (le : Bool) (c : List Nat) (o : Nat) : List ExifEntry :=
  (dirDecodedPair le c o).1 ++
    ((ptrEntries le c o).map (fun e => (dirDecodedPair le c (entryOffset e)).1)).flatten

/-- A concrete instance of the postprocessing collaborator's observable
effect: keep each entry's readable string. -/
def postId (e : ExifEntry) (_ : List ExifEntry) : String :=
  e.value_more_readable

/-- A little-endian TIFF buffer whose root directory holds one entry of
unknown tag 0xBEEF, format U8, count 1 (inline payload): 8-byte
preamble, entry count 1, one 12-byte record, trailing next-directory
offset 0. -/
def bufInline : List Nat :=
  [73, 73, 42, 0, 8, 0, 0, 0,
   1, 0,
   239, 190, 1, 0, 1, 0, 0, 0, 1, 2, 3, 4,
   0, 0, 0, 0]

/-- A little-endian TIFF buffer whose root directory holds one Exif
sub-directory pointer (tag 0x8769, format U32, count 1, offset 26) and
whose sub-directory at offset 26 holds one unknown entry. -/
def bufSub : List Nat :=
  [73, 73, 42, 0, 8, 0, 0, 0,
   1, 0,
   105, 135, 4, 0, 1, 0, 0, 0, 26, 0, 0, 0,
   0, 0, 0, 0,
   1, 0,
   239, 190, 1, 0, 1, 0, 0, 0, 9, 9, 9, 9]

/-- A little-endian TIFF buffer whose root directory holds one entry
using the canonical orientation tag code 0x0112 but carrying ASCII
format instead of the required 16-bit integer format (the spec's
schema-mismatch scenario, section 8). -/
def bufMismatch : List Nat :=
  [73, 73, 42, 0, 8, 0, 0, 0,
   1, 0,
   18, 1, 2, 0, 4, 0, 0, 0, 97, 98, 99, 100,
   0, 0, 0, 0]

/-- A resolved entry whose tag code 0xBEEF is absent from the
descriptor table (payload already copied from the inline slot). -/
def entryUnknownTag : IfdEntry :=
  { nspace := .Standard, tag := 0xBEEF, format := .U8, count := 1,
    data := [1, 2, 3, 4], ifd_data := [1, 2, 3, 4], ext_data := [], le := true }

/-- A resolved entry using the orientation tag code with ASCII format:
its actual format disagrees with the descriptor's declared U16. -/
def entryMismatch : IfdEntry :=
  { nspace := .Standard, tag := 0x0112, format := .Ascii, count := 4,
    data := [97, 98, 99, 100], ifd_data := [97, 98, 99, 100], ext_data := [], le := true }

/-- An unresolved entry with an offset-indirected payload: format U16,
count 4 (payload length 8 > 4), inline slot holding offset 2. -/
def entryFar : IfdEntry :=
  { nspace := .Standard, tag := 7, format := .U16, count := 4,
    data := [], ifd_data := [2, 0, 0, 0], ext_data := [], le := true }

/-- A 12-byte file buffer for `entryFar`: its window [2..10] is in
range. -/
def bufFar : List Nat :=
  [0, 1, 2, 3, 4, 5, 6, 7, 8, 9, 10, 11]

/-! ### Basic list and byte-reader lemmas -/

theorem get?_isSome_iff {α : Type _} (l : List α) (i : Nat) :
    (l.get? i).isSome ↔ i < l.length := by
  simp [List.get?_eq_getElem?, Option.isSome_iff_ne_none, ne_eq,
    List.getElem?_eq_none_iff, Nat.not_le]

theorem drop_cons_getD (c : List Nat) (o : Nat) (h : o < c.length) :
    c.drop o = c.getD o 0 :: c.drop (o + 1) := by
  induction c generalizing o with
  | nil => simp at h
  | cons a t ih =>
    cases o with
    | zero => simp
    | succ o' =>
      simp only [List.drop_succ_cons, List.getD_cons_succ]
      exact ih o' (by simpa using h)

theorem drop_two_getD (c : List Nat) (o : Nat) (h : o + 2 ≤ c.length) :
    c.drop o = c.getD o 0 :: c.getD (o + 1) 0 :: c.drop (o + 2) := by
  rw [drop_cons_getD c o (by omega), drop_cons_getD c (o + 1) (by omega)]

theorem drop_four_getD (c : List Nat) (o : Nat) (h : o + 4 ≤ c.length) :
    c.drop o = c.getD o 0 :: c.getD (o + 1) 0 :: c.getD (o + 2) 0 :: c.getD (o + 3) 0 ::
      c.drop (o + 4) := by
  rw [drop_cons_getD c o (by omega), drop_cons_getD c (o + 1) (by omega),
    drop_cons_getD c (o + 2) (by omega), drop_cons_getD c (o + 3) (by omega)]

theorem read_u16_drop (le : Bool) (c : List Nat) (o : Nat) (h : o + 2 ≤ c.length) :
    read_u16 le (c.drop o) = .ok (readU16at le c o) := by
  rw [drop_two_getD c o h]
  rfl

theorem read_u32_drop (le : Bool) (c : List Nat) (o : Nat) (h : o + 4 ≤ c.length) :
    read_u32 le (c.drop o) = .ok (readU32at le c o) := by
  rw [drop_four_getD c o h]
  rfl

theorem read_u16_slice (le : Bool) (c : List Nat) (o : Nat) (h : o + 2 ≤ c.length) :
    read_u16 le ((c.drop o).take 2) = .ok (readU16at le c o) := by
  rw [drop_two_getD c o h]
  rfl

theorem read_u32_slice (le : Bool) (c : List Nat) (o : Nat) (h : o + 4 ≤ c.length) :
    read_u32 le ((c.drop o).take 4) = .ok (readU32at le c o) := by
  rw [drop_four_getD c o h]
  rfl

theorem listSlice_eq_some (c : List Nat) (o n : Nat) (h : o + n ≤ c.length) :
    listSlice c o n = some ((c.drop o).take n) := by
  simp [listSlice, h]

theorem listSlice_eq_none (c : List Nat) (o n : Nat) (h : c.length < o + n) :
    listSlice c o n = none := by
  simp [listSlice]
  omega

theorem slice_length (c : List Nat) (o n : Nat) (h : o + n ≤ c.length) :
    ((c.drop o).take n).length = n := by
  simp [List.length_take, List.length_drop]
  omega

/-! ### Offset-resolver lemmas -/

theorem take_four_getD (l : List Nat) (h : 4 ≤ l.length) :
    l.take 4 = [l.getD 0 0, l.getD 1 0, l.getD 2 0, l.getD 3 0] := by
  have := drop_four_getD l 0 (by omega)
  simp only [List.drop_zero] at this
  rw [this]
  rfl

theorem data_as_offset_ok (e : IfdEntry) (h4 : 4 ≤ e.ifd_data.length) :
    e.data_as_offset = .ok (readU32at e.le e.ifd_data 0) := by
  unfold IfdEntry.data_as_offset
  rw [if_pos h4, take_four_getD e.ifd_data h4]
  rfl

theorem size_eq_spec (e : IfdEntry) : e.size = specElemSize e.format := by
  rcases e with ⟨ns, tag, fmt, cnt, data, ifdd, ext, le⟩
  cases fmt <;> rfl

theorem copy_data_inline (e : IfdEntry) (c : List Nat) (h : e.length ≤ 4) :
    e.copy_data c = .ok ({ e with data := e.ifd_data }, true) := by
  unfold IfdEntry.copy_data IfdEntry.in_ifd
  rw [if_pos (by simpa using h)]

theorem copy_data_window (e : IfdEntry) (c : List Nat) (h4 : 4 ≤ e.ifd_data.length)
    (h : 4 < e.length) (hw : readU32at e.le e.ifd_data 0 + e.length ≤ c.length) :
    e.copy_data c = .ok ({ e with ext_data := payloadWindow e c, data := payloadWindow e c }, true) := by
  unfold IfdEntry.copy_data IfdEntry.in_ifd
  rw [if_neg (by simp; omega), data_as_offset_ok e h4]
  dsimp only
  rw [listSlice_eq_some c _ _ hw]
  rfl

theorem copy_data_out (e : IfdEntry) (c : List Nat) (h4 : 4 ≤ e.ifd_data.length)
    (h : 4 < e.length) (hw : c.length < readU32at e.le e.ifd_data 0 + e.length) :
    e.copy_data c = .ok (e, false) := by
  unfold IfdEntry.copy_data IfdEntry.in_ifd
  rw [if_neg (by simp; omega), data_as_offset_ok e h4]
  dsimp only
  rw [listSlice_eq_none c _ _ hw]

/-! ### Claim theorems: accessors and the offset resolver -/

/-- C10: for every `TagValue` and index, `to_i64` is `some` exactly on
the integer variants (U8, U16, U32, I8, I16, I32) with an in-bounds
index and `to_f64` exactly on the numeric variants (integers, floats,
rationals) with an in-bounds index, `none` otherwise; on the integer
variants both agree, `to_f64` widening the very value `to_i64`
returns.  Neither accessor has a fault case. -/
theorem to_i64_to_f64_characterization (v : TagValue) (i : Nat) :
    ((v.to_i64 i).isSome ↔ (isIntegerValue v = true ∧ i < tvCount v)) ∧
    ((v.to_f64 i).isSome ↔ (isNumericValue v = true ∧ i < tvCount v)) ∧
    (∀ x : Int, v.to_i64 i = some x → v.to_f64 i = some (.ofInt x)) := by
  refine ⟨?_, ?_, ?_⟩ <;> cases v <;>
    simp [TagValue.to_i64, TagValue.to_f64, isIntegerValue, isNumericValue, tvCount,
      ← get?_isSome_iff, Option.isSome_map', Option.map_eq_some']

/-- C3: the element size of an entry is 1 byte for the
U8/Ascii/I8/Undefined/Unknown formats, 2 for U16/I16, 4 for
U32/I32/F32 and 8 for URational/IRational/F64; the payload length is
element size times count; `copy_data` takes the payload from the
4-byte inline slot exactly when that length is at most 4, and
otherwise reinterprets the slot as an offset and copies exactly
`length` bytes from `buffer[offset..offset+length]`, succeeding
exactly when that window lies within the buffer. -/
theorem copy_data_characterization (e : IfdEntry) (c : List Nat)
    (h4 : e.ifd_data.length = 4) :
    e.size = specElemSize e.format ∧
    e.length = specElemSize e.format * e.count ∧
    (e.length ≤ 4 → e.copy_data c = .ok ({ e with data := e.ifd_data }, true)) ∧
    (4 < e.length →
      (readU32at e.le e.ifd_data 0 + e.length ≤ c.length →
        e.copy_data c = .ok ({ e with ext_data := payloadWindow e c, data := payloadWindow e c }, true) ∧
        (payloadWindow e c).length = e.length) ∧
      (c.length < readU32at e.le e.ifd_data 0 + e.length →
        e.copy_data c = .ok (e, false))) := by
  refine ⟨size_eq_spec e, ?_, ?_, ?_⟩
  · rw [IfdEntry.length, size_eq_spec]
  · exact copy_data_inline e c
  · intro h
    refine ⟨fun hw => ⟨copy_data_window e c (by omega) h hw, ?_⟩,
      copy_data_out e c (by omega) h⟩
    unfold payloadWindow
    exact slice_length c _ _ hw

/-- Witness for C3 at a concrete offset-indirected entry (format U16,
count 4, offset 2) against a 12-byte buffer. -/
theorem copy_data_characterization_witness :
    entryFar.ifd_data.length = 4 ∧
    (entryFar.size = specElemSize entryFar.format ∧
     entryFar.length = specElemSize entryFar.format * entryFar.count ∧
     (entryFar.length ≤ 4 → entryFar.copy_data bufFar = .ok ({ entryFar with data := entryFar.ifd_data }, true)) ∧
     (4 < entryFar.length →
       (readU32at entryFar.le entryFar.ifd_data 0 + entryFar.length ≤ bufFar.length →
         entryFar.copy_data bufFar = .ok ({ entryFar with ext_data := payloadWindow entryFar bufFar, data := payloadWindow entryFar bufFar }, true) ∧
         (payloadWindow entryFar bufFar).length = entryFar.length) ∧
       (bufFar.length < readU32at entryFar.le entryFar.ifd_data 0 + entryFar.length →
         entryFar.copy_data bufFar = .ok (entryFar, false)))) :=
  ⟨rfl, copy_data_characterization entryFar bufFar rfl⟩

/-- C4 fails on the code: the readable-string formatters `orientation`,
`rational_value` and `dms` of exifreadable.rs hit `panic!(INV)` (a
process abort, not a typed mismatch result) when applied to a value of
a variant they do not expect, here an ASCII value. -/
theorem formatters_panic_on_mismatch :
    orientation (.Ascii []) "" = .error () ∧
    rational_value (.Ascii []) "" = .error () ∧
    dms (.Ascii []) "" = .error () :=
  ⟨rfl, rfl, rfl⟩

/-- C2 fails on the code: for a root (non-sub) directory `parse_ifd`
evaluates `read_u32(le, &contents[count as usize * 12..])` without any
bounds check, so on an empty buffer with entry count 0 it faults
instead of returning `None`; the sub-directory call on the same input
returns normally. -/
theorem parse_ifd_trailing_read_faults :
    parse_ifd false true 0 [] = .error () ∧
    parse_ifd true true 0 [] = .ok (some ([], 0)) :=
  ⟨rfl, rfl⟩

/-- C7 fails on the code in one point: an entry whose tag code is
absent from the descriptor table does keep its raw entry, its typed
value, and a readable string equal to the value's default
stringification — but its unit is the string "Unknown", not the empty
string claimed (and documented on the `unit` field in types.rs). -/
theorem unknown_tag_passthrough_unit :
    parse_exif_entry entryUnknownTag [] = .ok (defaultExifEntry entryUnknownTag, []) ∧
    (defaultExifEntry entryUnknownTag).ifd = entryUnknownTag ∧
    (defaultExifEntry entryUnknownTag).tag = ExifTag.UnknownToMe ∧
    (defaultExifEntry entryUnknownTag).value = tag_value_new entryUnknownTag ∧
    (defaultExifEntry entryUnknownTag).value_more_readable =
      tagValue_display (tag_value_new entryUnknownTag) ∧
    (defaultExifEntry entryUnknownTag).unit = "Unknown" ∧
    "Unknown" ≠ "" := by
  refine ⟨rfl, rfl, rfl, rfl, rfl, rfl, by decide⟩

/-- C8 fails on the code: parsing a TIFF whose single root entry has
format U8 and count 1 (payload length 1) yields an output entry whose
resolved `data` field holds the whole 4-byte inline slot, so its byte
length is 4, not element-size times count = 1. -/
theorem payload_length_not_size_times_count :
    (match parse_tiff postId bufInline [] with
     | .ok (.ok l, _) => (l.map fun e => e.ifd.data.length, l.map fun e => e.ifd.length)
     | _ => ([], [])) = ([4], [1]) := by
  rfl

/-- C6: for every resolved entry whose tag code is in the descriptor
table, a format mismatch against the declared format, or (when the
declared min count is nonnegative) a count outside the declared range,
makes `parse_exif_entry` return normally with the entry downgraded to
the unrecognized-equivalent result (tag `UnknownToMe`, default
stringification) and exactly one warning appended to the shared
diagnostics list; the concrete schema-mismatch scenario (orientation
tag carrying ASCII) decodes to one unrecognized entry plus exactly one
warning with the whole parse succeeding. -/
theorem schema_mismatch_downgrade :
    (∀ (f : IfdEntry) (w : List String),
      (tag_to_exif f.tag).tag ≠ ExifTag.UnknownToMe →
      ((tag_to_exif f.tag).format ≠ f.format ∨
        (0 ≤ (tag_to_exif f.tag).min_count ∧
          (i32_of_u32 f.count < (tag_to_exif f.tag).min_count ∨
           i32_of_u32 f.count > (tag_to_exif f.tag).max_count))) →
      ∃ warning, parse_exif_entry f w = .ok (defaultExifEntry f, w ++ [warning])) ∧
    (match parse_tiff postId bufMismatch [] with
     | .ok (.ok l, ws) => (l.length, ws.length, l.map fun e => e.tag)
     | _ => (0, 0, [])) = (1, 1, [ExifTag.UnknownToMe]) := by
  refine ⟨?_, rfl⟩
  intro f w hrow hmis
  have hassert : ¬(tagCode (tag_to_exif f.tag).tag % 65536 ≠ f.tag
      ∨ ((tag_to_exif f.tag).min_count = -1 ∧
          ((tag_to_exif f.tag).format ≠ .Ascii ∧ (tag_to_exif f.tag).format ≠ .Undefined ∧
            (tag_to_exif f.tag).format ≠ .Unknown))
      ∨ ((tag_to_exif f.tag).min_count ≠ -1 ∧ (tag_to_exif f.tag).format = .Ascii)) := by
    by_cases h1 : f.tag = 274
    · simp [tag_to_exif, h1, tagCode, rowOrientation]
    · by_cases h2 : f.tag = 34665
      · simp [tag_to_exif, h1, h2, tagCode, rowExifOffset]
      · by_cases h3 : f.tag = 34853
        · simp [tag_to_exif, h1, h2, h3, tagCode, rowGPSOffset]
        · exact absurd (by simp [tag_to_exif, h1, h2, h3, rowUnknown]) hrow
  have hmin : (tag_to_exif f.tag).min_count ≠ -1 := by
    by_cases h1 : f.tag = 274
    · simp [tag_to_exif, h1, rowOrientation]
    · by_cases h2 : f.tag = 34665
      · simp [tag_to_exif, h1, h2, rowExifOffset]
      · by_cases h3 : f.tag = 34853
        · simp [tag_to_exif, h1, h2, h3, rowGPSOffset]
        · exact absurd (by simp [tag_to_exif, h1, h2, h3, rowUnknown]) hrow
  simp only [parse_exif_entry]
  rw [if_neg hrow, if_neg hassert]
  by_cases hfmt : (tag_to_exif f.tag).format ≠ f.format
  · rw [if_pos hfmt]
    exact ⟨_, rfl⟩
  · rw [if_neg hfmt]
    have hcnt : (tag_to_exif f.tag).min_count ≠ -1 ∧
        (i32_of_u32 f.count < (tag_to_exif f.tag).min_count ∨
          i32_of_u32 f.count > (tag_to_exif f.tag).max_count) := by
      rcases hmis with h | ⟨_, hout⟩
      · exact absurd h hfmt
      · exact ⟨hmin, hout⟩
    rw [if_pos hcnt]
    exact ⟨_, rfl⟩

/-- Witness for C6 at the concrete orientation-tag entry carrying
ASCII format. -/
theorem schema_mismatch_downgrade_witness :
    (tag_to_exif entryMismatch.tag).tag ≠ ExifTag.UnknownToMe ∧
    (tag_to_exif entryMismatch.tag).format ≠ entryMismatch.format ∧
    (∃ warning, parse_exif_entry entryMismatch [] =
      .ok (defaultExifEntry entryMismatch, [] ++ [warning])) :=
  ⟨by decide, by decide,
    schema_mismatch_downgrade.1 entryMismatch [] (by decide) (.inl (by decide))⟩

/-! ### Directory-parser characterization -/

theorem parse_ifd_loop_ok (le : Bool) (c : List Nat) :
    ∀ (rem i : Nat), (i + rem) * 12 ≤ c.length →
    parse_ifd_loop le c rem i = .ok (some (idxEntries le c rem i)) := by
  intro rem
  induction rem with
  | zero => intro i _; rfl
  | succ rem ih =>
    intro i h
    have h12 : i * 12 + 12 ≤ c.length := by omega
    rw [parse_ifd_loop, listSlice_eq_some c (i * 12) 2 (by omega),
      listSlice_eq_some c (i * 12 + 2) 2 (by omega),
      listSlice_eq_some c (i * 12 + 4) 4 (by omega),
      listSlice_eq_some c (i * 12 + 8) 4 (by omega)]
    dsimp only
    rw [read_u16_slice le c (i * 12) (by omega)]
    dsimp only
    rw [read_u16_slice le c (i * 12 + 2) (by omega)]
    dsimp only
    rw [read_u32_slice le c (i * 12 + 4) (by omega)]
    dsimp only
    rw [ih (i + 1) (by omega)]
    rfl

theorem parse_ifd_loop_short (le : Bool) (c : List Nat) :
    ∀ (rem i : Nat), c.length < (i + rem) * 12 → 0 < rem →
    parse_ifd_loop le c rem i = .ok none := by
  intro rem
  induction rem with
  | zero => intro i _ h0; omega
  | succ rem ih =>
    intro i h _
    by_cases hin : i * 12 + 12 ≤ c.length
    · have hrem : 0 < rem := by omega
      rw [parse_ifd_loop, listSlice_eq_some c (i * 12) 2 (by omega),
        listSlice_eq_some c (i * 12 + 2) 2 (by omega),
        listSlice_eq_some c (i * 12 + 4) 4 (by omega),
        listSlice_eq_some c (i * 12 + 8) 4 (by omega)]
      dsimp only
      rw [read_u16_slice le c (i * 12) (by omega)]
      dsimp only
      rw [read_u16_slice le c (i * 12 + 2) (by omega)]
      dsimp only
      rw [read_u32_slice le c (i * 12 + 4) (by omega)]
      dsimp only
      rw [ih (i + 1) (by omega) hrem]
    · have h4 : listSlice c (i * 12 + 8) 4 = none := listSlice_eq_none _ _ _ (by omega)
      rcases hA : listSlice c (i * 12) 2 with _ | sA <;>
        rcases hB : listSlice c (i * 12 + 2) 2 with _ | sB <;>
          rcases hC : listSlice c (i * 12 + 4) 4 with _ | sC <;>
            simp [parse_ifd_loop, hA, hB, hC, h4]

theorem parse_ifd_sub (le : Bool) (cnt : Nat) (content : List Nat)
    (h : content.length = cnt * 12) :
    parse_ifd true le cnt content = .ok (some (idxEntries le content cnt 0, 0)) := by
  rw [parse_ifd, parse_ifd_loop_ok le content cnt 0 (by omega)]
  rfl

theorem parse_ifd_root (le : Bool) (cnt : Nat) (content : List Nat)
    (h : content.length = cnt * 12 + 4) :
    parse_ifd false le cnt content =
      .ok (some (idxEntries le content cnt 0, readU32at le content (cnt * 12))) := by
  rw [parse_ifd, parse_ifd_loop_ok le content cnt 0 (by omega)]
  dsimp only
  rw [if_pos (show cnt * 12 ≤ content.length by omega)]
  rw [read_u32_drop le content (cnt * 12) (by omega)]
  rfl

theorem idxEntries_mem (le : Bool) (c : List Nat) :
    ∀ (rem i : Nat), ∀ e ∈ idxEntries le c rem i,
    ∃ j, i ≤ j ∧ j < i + rem ∧ e = mkEntryAt le c j := by
  intro rem
  induction rem with
  | zero => intro i e he; simp [idxEntries] at he
  | succ rem ih =>
    intro i e he
    rw [idxEntries] at he
    rcases List.mem_cons.mp he with he | he
    · exact ⟨i, by omega, by omega, he⟩
    · obtain ⟨j, hj1, hj2, hj3⟩ := ih (i + 1) e he
      exact ⟨j, by omega, by omega, hj3⟩

theorem mkEntryAt_ifd_data_length (le : Bool) (c : List Nat) (j : Nat)
    (h : j * 12 + 12 ≤ c.length) : (mkEntryAt le c j).ifd_data.length = 4 := by
  simp only [mkEntryAt]
  exact slice_length c (j * 12 + 8) 4 (by omega)

theorem idxEntries_ifd_data_length (le : Bool) (c : List Nat) (cnt : Nat)
    (h : cnt * 12 ≤ c.length) :
    ∀ e ∈ idxEntries le c cnt 0, e.ifd_data.length = 4 := by
  intro e he
  obtain ⟨j, _, hj2, rfl⟩ := idxEntries_mem le c cnt 0 e he
  exact mkEntryAt_ifd_data_length le c j (by omega)

/-! ### Tag validator/decoder totality -/

theorem read_u16_array_length (le : Bool) :
    ∀ (cnt : Nat) (data : List Nat), 2 * cnt ≤ data.length →
    (read_u16_array le cnt data).length = cnt := by
  intro cnt
  induction cnt with
  | zero => intro data _; rfl
  | succ cnt ih =>
    intro data h
    rcases data with _ | ⟨b0, _ | ⟨b1, rest⟩⟩
    · simp at h
    · simp at h; omega
    · simp only [read_u16_array, List.length_cons]
      rw [ih rest (by simp at h; omega)]

theorem orientation_cons (x : Nat) (r : List Nat) (s : String) :
    ∃ out, orientation (.U16 (x :: r)) s = .ok out := by
  unfold orientation
  dsimp only
  split_ifs <;> exact ⟨_, rfl⟩

theorem count_pos_of_cast_one (n : Nat) (h : i32_of_u32 n = 1) : 0 < n := by
  unfold i32_of_u32 sint32 at h
  split at h <;> omega

theorem length_set_data (e : IfdEntry) (d x : List Nat) :
    ({ e with data := d, ext_data := x } : IfdEntry).length = e.length := rfl

theorem copy_data_cases (e : IfdEntry) (c : List Nat) (h4 : e.ifd_data.length = 4) :
    e.copy_data c = .ok (e, false) ∨
    ∃ e', e.copy_data c = .ok (e', true) ∧ e'.length ≤ e'.data.length := by
  by_cases hl : e.length ≤ 4
  · right
    refine ⟨_, copy_data_inline e c hl, ?_⟩
    show ({ e with data := e.ifd_data } : IfdEntry).length ≤ e.ifd_data.length
    rw [show ({ e with data := e.ifd_data } : IfdEntry).length = e.length from rfl, h4]
    exact hl
  · by_cases hw : readU32at e.le e.ifd_data 0 + e.length ≤ c.length
    · right
      refine ⟨_, copy_data_window e c (by omega) (by omega) hw, ?_⟩
      show ({ e with ext_data := payloadWindow e c, data := payloadWindow e c } : IfdEntry).length ≤
        (payloadWindow e c).length
      rw [show ({ e with ext_data := payloadWindow e c, data := payloadWindow e c } : IfdEntry).length
          = e.length from rfl]
      rw [payloadWindow, slice_length c _ _ hw]
    · left
      exact copy_data_out e c (by omega) (by omega) (by omega)

theorem parse_exif_entry_shape (f : IfdEntry) (hdata : f.length ≤ f.data.length) :
    ∃ ee wnew, ∀ w, parse_exif_entry f w = .ok (ee, w ++ wnew) := by
  by_cases h1 : f.tag = 274
  · -- orientation row
    have hrow : tag_to_exif f.tag = rowOrientation := by rw [tag_to_exif, if_pos h1]
    have hassert : ¬(tagCode rowOrientation.tag % 65536 ≠ f.tag
        ∨ (rowOrientation.min_count = -1 ∧ (rowOrientation.format ≠ .Ascii ∧
            rowOrientation.format ≠ .Undefined ∧ rowOrientation.format ≠ .Unknown))
        ∨ (rowOrientation.min_count ≠ -1 ∧ rowOrientation.format = .Ascii)) := by
      rw [h1]; decide
    by_cases hfmt : rowOrientation.format = f.format
    · by_cases hcnt : i32_of_u32 f.count < rowOrientation.min_count ∨
        i32_of_u32 f.count > rowOrientation.max_count
      · refine ⟨defaultExifEntry f,
          [countWarning f rowOrientation.min_count rowOrientation.max_count], fun w => ?_⟩
        simp only [parse_exif_entry, hrow]
        rw [if_neg (by decide), if_neg hassert, if_neg (not_not_intro hfmt),
          if_pos ⟨by decide, hcnt⟩]
      · have hfmt' : f.format = .U16 := hfmt.symm
        have hcnt' : ¬(i32_of_u32 f.count < 1 ∨ i32_of_u32 f.count > 1) := hcnt
        have hcast : i32_of_u32 f.count = 1 := by omega
        have hpos : 0 < f.count := count_pos_of_cast_one _ hcast
        have hflen : f.length = 2 * f.count := by
          rw [IfdEntry.length, IfdEntry.size, hfmt']
        have hlen2 : 2 * f.count ≤ f.data.length := by omega
        have hval : tag_value_new f = .U16 (read_u16_array f.le f.count f.data) := by
          rw [tag_value_new, if_neg (by omega), hfmt']
        have hlength : (read_u16_array f.le f.count f.data).length = f.count :=
          read_u16_array_length f.le f.count f.data hlen2
        obtain ⟨x, r, hxr⟩ : ∃ x r, read_u16_array f.le f.count f.data = x :: r := by
          rcases hc : read_u16_array f.le f.count f.data with _ | ⟨x, r⟩
          · rw [hc] at hlength; simp at hlength; omega
          · exact ⟨x, r, rfl⟩
        obtain ⟨out, hout⟩ := orientation_cons x r (tagValue_display (.U16 (x :: r)))
        refine ⟨{ defaultExifEntry f with tag := rowOrientation.tag, unit := rowOrientation.unit, value_more_readable := out }, [], fun w => ?_⟩
        simp only [parse_exif_entry, hrow]
        rw [if_neg (by decide), if_neg hassert, if_neg (not_not_intro hfmt),
          if_neg (fun hh => hcnt hh.2)]
        have hv : (defaultExifEntry f).value = TagValue.U16 (x :: r) := by
          show tag_value_new f = _
          rw [hval, hxr]
        rw [show rowOrientation.more_readable (defaultExifEntry f).value
            = orientation (defaultExifEntry f).value (tagValue_display (defaultExifEntry f).value)
            from rfl, hv, hout]
        simp
    · refine ⟨defaultExifEntry f, [formatWarning f rowOrientation.format], fun w => ?_⟩
      simp only [parse_exif_entry, hrow]
      rw [if_neg (by decide), if_neg hassert, if_pos hfmt]
  · by_cases h2 : f.tag = 34665
    · -- Exif pointer row
      have hrow : tag_to_exif f.tag = rowExifOffset := by
        rw [tag_to_exif, if_neg (by omega), if_pos h2]
      have hassert : ¬(tagCode rowExifOffset.tag % 65536 ≠ f.tag
          ∨ (rowExifOffset.min_count = -1 ∧ (rowExifOffset.format ≠ .Ascii ∧
              rowExifOffset.format ≠ .Undefined ∧ rowExifOffset.format ≠ .Unknown))
          ∨ (rowExifOffset.min_count ≠ -1 ∧ rowExifOffset.format = .Ascii)) := by
        rw [h2]; decide
      by_cases hfmt : rowExifOffset.format = f.format
      · by_cases hcnt : i32_of_u32 f.count < rowExifOffset.min_count ∨
          i32_of_u32 f.count > rowExifOffset.max_count
        · refine ⟨defaultExifEntry f,
            [countWarning f rowExifOffset.min_count rowExifOffset.max_count], fun w => ?_⟩
          simp only [parse_exif_entry, hrow]
          rw [if_neg (by decide), if_neg hassert, if_neg (not_not_intro hfmt),
            if_pos ⟨by decide, hcnt⟩]
        · refine ⟨{ defaultExifEntry f with tag := rowExifOffset.tag, unit := rowExifOffset.unit, value_more_readable := tagValue_display (defaultExifEntry f).value }, [], fun w => ?_⟩
          simp only [parse_exif_entry, hrow]
          rw [if_neg (by decide), if_neg hassert, if_neg (not_not_intro hfmt),
            if_neg (fun hh => hcnt hh.2)]
          simp [rowExifOffset, strpass]
      · refine ⟨defaultExifEntry f, [formatWarning f rowExifOffset.format], fun w => ?_⟩
        simp only [parse_exif_entry, hrow]
        rw [if_neg (by decide), if_neg hassert, if_pos hfmt]
    · by_cases h3 : f.tag = 34853
      · -- GPS pointer row
        have hrow : tag_to_exif f.tag = rowGPSOffset := by
          rw [tag_to_exif, if_neg (by omega), if_neg (by omega), if_pos h3]
        have hassert : ¬(tagCode rowGPSOffset.tag % 65536 ≠ f.tag
            ∨ (rowGPSOffset.min_count = -1 ∧ (rowGPSOffset.format ≠ .Ascii ∧
                rowGPSOffset.format ≠ .Undefined ∧ rowGPSOffset.format ≠ .Unknown))
            ∨ (rowGPSOffset.min_count ≠ -1 ∧ rowGPSOffset.format = .Ascii)) := by
          rw [h3]; decide
        by_cases hfmt : rowGPSOffset.format = f.format
        · by_cases hcnt : i32_of_u32 f.count < rowGPSOffset.min_count ∨
            i32_of_u32 f.count > rowGPSOffset.max_count
          · refine ⟨defaultExifEntry f,
              [countWarning f rowGPSOffset.min_count rowGPSOffset.max_count], fun w => ?_⟩
            simp only [parse_exif_entry, hrow]
            rw [if_neg (by decide), if_neg hassert, if_neg (not_not_intro hfmt),
              if_pos ⟨by decide, hcnt⟩]
          · refine ⟨{ defaultExifEntry f with tag := rowGPSOffset.tag, unit := rowGPSOffset.unit, value_more_readable := tagValue_display (defaultExifEntry f).value }, [], fun w => ?_⟩
            simp only [parse_exif_entry, hrow]
            rw [if_neg (by decide), if_neg hassert, if_neg (not_not_intro hfmt),
              if_neg (fun hh => hcnt hh.2)]
            simp [rowGPSOffset, strpass]
        · refine ⟨defaultExifEntry f, [formatWarning f rowGPSOffset.format], fun w => ?_⟩
          simp only [parse_exif_entry, hrow]
          rw [if_neg (by decide), if_neg hassert, if_pos hfmt]
      · -- catch-all row
        have hrow : tag_to_exif f.tag = rowUnknown := by
          rw [tag_to_exif, if_neg (by omega), if_neg (by omega), if_neg (by omega)]
        refine ⟨defaultExifEntry f, [], fun w => ?_⟩
        simp only [parse_exif_entry, hrow]
        rw [if_pos (by decide)]
        simp

/-! ### Entry-loop and deep-parse characterization -/

theorem exif_ifd_loop_spec (c : List Nat) :
    ∀ (l : List IfdEntry), (∀ e ∈ l, e.ifd_data.length = 4) →
    ∃ δ ω, ∀ es ws, exif_ifd_loop c l es ws = .ok (es ++ δ, ws ++ ω) := by
  intro l
  induction l with
  | nil =>
    intro _
    exact ⟨[], [], fun es ws => by simp [exif_ifd_loop]⟩
  | cons e rest ih =>
    intro h4
    obtain ⟨δ, ω, hih⟩ := ih (fun x hx => h4 x (List.mem_cons_of_mem e hx))
    rcases copy_data_cases e c (h4 e (List.mem_cons_self e rest)) with hcd | ⟨e', hcd, hlen⟩
    · refine ⟨δ, ω, fun es ws => ?_⟩
      rw [exif_ifd_loop, hcd]
      dsimp only
      rw [if_neg (by simp)]
      exact hih es ws
    · obtain ⟨ee, wnew, hpe⟩ := parse_exif_entry_shape e' hlen
      refine ⟨ee :: δ, wnew ++ ω, fun es ws => ?_⟩
      rw [exif_ifd_loop, hcd]
      dsimp only
      rw [if_pos rfl, hpe ws]
      dsimp only
      rw [hih (es ++ [ee]) (ws ++ wnew)]
      simp

theorem parse_exif_ifd_count_trunc (le : Bool) (c : List Nat) (o : Nat)
    (es : List ExifEntry) (ws : List String) (h : c.length < o + 2) :
    parse_exif_ifd le c o es ws =
      .ok (.error (.ExifIfdTruncated "Truncated at dir entry count"), es, ws) := by
  rw [parse_exif_ifd, if_pos h]

theorem parse_exif_ifd_listing_trunc (le : Bool) (c : List Nat) (o : Nat)
    (es : List ExifEntry) (ws : List String) (h1 : o + 2 ≤ c.length)
    (h2 : c.length < o + 2 + readU16at le c o * 12) :
    parse_exif_ifd le c o es ws =
      .ok (.error (.ExifIfdTruncated "Truncated at dir listing"), es, ws) := by
  rw [parse_exif_ifd, if_neg (by omega), listSlice_eq_some c o 2 (by omega)]
  dsimp only
  rw [read_u16_slice le c o (by omega)]
  dsimp only
  rw [if_pos h2]

theorem parse_exif_ifd_ok (le : Bool) (c : List Nat) (o : Nat)
    (es : List ExifEntry) (ws : List String) (h1 : o + 2 ≤ c.length)
    (h2 : o + 2 + readU16at le c o * 12 ≤ c.length) :
    parse_exif_ifd le c o es ws =
      .ok (.ok (), es ++ (dirDecodedPair le c o).1, ws ++ (dirDecodedPair le c o).2) := by
  have hslice : ((c.drop (o + 2)).take (readU16at le c o * 12)).length = readU16at le c o * 12 :=
    slice_length c (o + 2) _ (by omega)
  have h4 : ∀ e ∈ idxEntries le ((c.drop (o + 2)).take (readU16at le c o * 12))
      (readU16at le c o) 0, e.ifd_data.length = 4 :=
    idxEntries_ifd_data_length le _ _ (by omega)
  obtain ⟨δ, ω, hloop⟩ := exif_ifd_loop_spec c _ h4
  have hpair : dirDecodedPair le c o = (δ, ω) := by
    rw [dirDecodedPair]
    rw [hloop [] []]
    simp
  rw [parse_exif_ifd, if_neg (by omega), listSlice_eq_some c o 2 (by omega)]
  dsimp only
  rw [read_u16_slice le c o (by omega)]
  dsimp only
  rw [if_neg (by omega), listSlice_eq_some c (o + 2) _ (by omega)]
  dsimp only
  rw [parse_ifd_sub le _ _ hslice]
  dsimp only
  rw [hloop es ws, hpair]

/-! ### Sub-directory discovery loop characterization -/

theorem isPtrTag_skip (e : IfdEntry) (h : isPtrTag e = false) :
    e.tag ≠ tagCode ExifTag.ExifOffset % 65536 ∧ e.tag ≠ tagCode ExifTag.GPSOffset % 65536 := by
  simp [isPtrTag, tagCode] at h ⊢
  exact h

theorem isPtrTag_hit (e : IfdEntry) (h : isPtrTag e = true) :
    ¬(e.tag ≠ tagCode ExifTag.ExifOffset % 65536 ∧ e.tag ≠ tagCode ExifTag.GPSOffset % 65536) := by
  simp [isPtrTag, tagCode] at h ⊢
  omega

theorem subFatal_false_elim (c : List Nat) (le : Bool) (e : IfdEntry)
    (h : subFatal c le e = false) :
    entryOffset e + 2 + readU16at le c (entryOffset e) * 12 ≤ c.length := by
  simp [subFatal] at h
  omega

theorem subFatal_true_elim (c : List Nat) (le : Bool) (e : IfdEntry)
    (h : subFatal c le e = true) :
    c.length < entryOffset e ∨ c.length < entryOffset e + 2 ∨
      c.length < entryOffset e + 2 + readU16at le c (entryOffset e) * 12 := by
  simp [subFatal] at h
  omega

theorem data_as_offset_entry (e : IfdEntry) (h4 : 4 ≤ e.ifd_data.length) :
    e.data_as_offset = .ok (entryOffset e) :=
  data_as_offset_ok e h4

theorem sub_ifd_loop_ok (le : Bool) (c : List Nat) :
    ∀ (l : List IfdEntry), (∀ e ∈ l, e.ifd_data.length = 4) →
    (∀ e ∈ l, isPtrTag e = true → subFatal c le e = false) →
    ∀ es ws, sub_ifd_loop le c l es ws =
      .ok (.ok (),
        es ++ ((l.filter isPtrTag).map fun e => (dirDecodedPair le c (entryOffset e)).1).flatten,
        ws ++ ((l.filter isPtrTag).map fun e => (dirDecodedPair le c (entryOffset e)).2).flatten) := by
  intro l
  induction l with
  | nil => intro _ _ es ws; simp [sub_ifd_loop]
  | cons e rest ih =>
    intro h4 hok es ws
    by_cases hp : isPtrTag e = true
    · have hf := subFatal_false_elim c le e (hok e (List.mem_cons_self e rest) hp)
      rw [sub_ifd_loop, if_neg (isPtrTag_hit e hp),
        data_as_offset_entry e (by rw [h4 e (List.mem_cons_self e rest)])]
      dsimp only
      rw [if_neg (by omega),
        parse_exif_ifd_ok le c (entryOffset e) es ws (by omega) (by omega)]
      dsimp only
      rw [ih (fun x hx => h4 x (List.mem_cons_of_mem e hx))
        (fun x hx hh => hok x (List.mem_cons_of_mem e hx) hh)]
      rw [List.filter_cons_of_pos hp]
      simp
    · rw [sub_ifd_loop, if_pos (isPtrTag_skip e (by simpa using hp)),
        ih (fun x hx => h4 x (List.mem_cons_of_mem e hx))
          (fun x hx hh => hok x (List.mem_cons_of_mem e hx) hh)]
      rw [List.filter_cons_of_neg (by simpa using hp)]

theorem sub_ifd_loop_err (le : Bool) (c : List Nat) :
    ∀ (l : List IfdEntry), (∀ e ∈ l, e.ifd_data.length = 4) →
    (∃ e ∈ l, isPtrTag e = true ∧ subFatal c le e = true) →
    ∀ es ws, ∃ err es' ws', sub_ifd_loop le c l es ws = .ok (.error err, es', ws') := by
  intro l
  induction l with
  | nil => intro _ hex; simp at hex
  | cons e rest ih =>
    intro h4 hex es ws
    by_cases hp : isPtrTag e = true
    · by_cases hbad : subFatal c le e = true
      · rcases subFatal_true_elim c le e hbad with hoff | hoff2 | hoff3
        · rw [sub_ifd_loop, if_neg (isPtrTag_hit e hp),
            data_as_offset_entry e (by rw [h4 e (List.mem_cons_self e rest)])]
          dsimp only
          rw [if_pos hoff]
          exact ⟨_, _, _, rfl⟩
        · by_cases hoff : c.length < entryOffset e
          · rw [sub_ifd_loop, if_neg (isPtrTag_hit e hp),
              data_as_offset_entry e (by rw [h4 e (List.mem_cons_self e rest)])]
            dsimp only
            rw [if_pos hoff]
            exact ⟨_, _, _, rfl⟩
          · rw [sub_ifd_loop, if_neg (isPtrTag_hit e hp),
              data_as_offset_entry e (by rw [h4 e (List.mem_cons_self e rest)])]
            dsimp only
            rw [if_neg hoff, parse_exif_ifd_count_trunc le c _ es ws hoff2]
            exact ⟨_, _, _, rfl⟩
        · by_cases hoff : c.length < entryOffset e
          · rw [sub_ifd_loop, if_neg (isPtrTag_hit e hp),
              data_as_offset_entry e (by rw [h4 e (List.mem_cons_self e rest)])]
            dsimp only
            rw [if_pos hoff]
            exact ⟨_, _, _, rfl⟩
          · by_cases hoff2 : c.length < entryOffset e + 2
            · rw [sub_ifd_loop, if_neg (isPtrTag_hit e hp),
                data_as_offset_entry e (by rw [h4 e (List.mem_cons_self e rest)])]
              dsimp only
              rw [if_neg hoff, parse_exif_ifd_count_trunc le c _ es ws hoff2]
              exact ⟨_, _, _, rfl⟩
            · rw [sub_ifd_loop, if_neg (isPtrTag_hit e hp),
                data_as_offset_entry e (by rw [h4 e (List.mem_cons_self e rest)])]
              dsimp only
              rw [if_neg hoff,
                parse_exif_ifd_listing_trunc le c _ es ws (by omega) hoff3]
              exact ⟨_, _, _, rfl⟩
      · have hrest : ∃ x ∈ rest, isPtrTag x = true ∧ subFatal c le x = true := by
          rcases hex with ⟨x, hx, hxx⟩
          rcases List.mem_cons.mp hx with rfl | hx'
          · exact absurd hxx.2 hbad
          · exact ⟨x, hx', hxx⟩
        have hf : subFatal c le e = false := by simpa using hbad
        have hf2 := subFatal_false_elim c le e hf
        rw [sub_ifd_loop, if_neg (isPtrTag_hit e hp),
          data_as_offset_entry e (by rw [h4 e (List.mem_cons_self e rest)])]
        dsimp only
        rw [if_neg (by omega),
          parse_exif_ifd_ok le c (entryOffset e) es ws (by omega) (by omega)]
        dsimp only
        exact ih (fun x hx => h4 x (List.mem_cons_of_mem e hx)) hrest _ _
    · have hrest : ∃ x ∈ rest, isPtrTag x = true ∧ subFatal c le x = true := by
        rcases hex with ⟨x, hx, hxx⟩
        rcases List.mem_cons.mp hx with rfl | hx'
        · exact absurd hxx.1 hp
        · exact ⟨x, hx', hxx⟩
      rw [sub_ifd_loop, if_pos (isPtrTag_skip e (by simpa using hp))]
      exact ih (fun x hx => h4 x (List.mem_cons_of_mem e hx)) hrest es ws

/-! ### Walker characterization -/

theorem parse_ifds_count_trunc (g : ExifEntry → List ExifEntry → String) (le : Bool)
    (o : Nat) (c : List Nat) (ws : List String) (h : c.length < o + 2) :
    parse_ifds g le o c ws =
      .ok (.error (.ExifIfdTruncated "Truncated at dir entry count"), ws) := by
  rw [parse_ifds, parse_exif_ifd_count_trunc le c o [] ws h]

theorem parse_ifds_listing_trunc (g : ExifEntry → List ExifEntry → String) (le : Bool)
    (o : Nat) (c : List Nat) (ws : List String) (h1 : o + 2 ≤ c.length)
    (h2 : c.length < o + 2 + readU16at le c o * 12) :
    parse_ifds g le o c ws =
      .ok (.error (.ExifIfdTruncated "Truncated at dir listing"), ws) := by
  rw [parse_ifds, parse_exif_ifd_listing_trunc le c o [] ws h1 h2]

theorem parse_ifds_next_trunc (g : ExifEntry → List ExifEntry → String) (le : Bool)
    (o : Nat) (c : List Nat) (ws : List String) (h1 : o + 2 ≤ c.length)
    (h2 : o + 2 + readU16at le c o * 12 ≤ c.length)
    (h3 : c.length < o + 2 + readU16at le c o * 12 + 4) :
    parse_ifds g le o c ws = .ok (.error .IfdTruncated, ws ++ (dirDecodedPair le c o).2) := by
  rw [parse_ifds, parse_exif_ifd_ok le c o [] ws h1 h2]
  dsimp only
  rw [listSlice_eq_some c o 2 (by omega)]
  dsimp only
  rw [read_u16_slice le c o (by omega)]
  dsimp only
  rw [listSlice_eq_none c (o + 2) (readU16at le c o * 12 + 4) (by omega)]

theorem parse_ifds_sub_err (g : ExifEntry → List ExifEntry → String) (le : Bool)
    (o : Nat) (c : List Nat) (ws : List String) (h1 : o + 2 ≤ c.length)
    (h2 : o + 2 + readU16at le c o * 12 + 4 ≤ c.length)
    (hbad : (ptrEntries le c o).any (subFatal c le) = true) :
    ∃ err ws', parse_ifds g le o c ws = .ok (.error err, ws') := by
  have hslice : ((c.drop (o + 2)).take (readU16at le c o * 12 + 4)).length
      = readU16at le c o * 12 + 4 := slice_length c (o + 2) _ (by omega)
  have h4 : ∀ e ∈ rootScanEntries le c o, e.ifd_data.length = 4 := by
    rw [rootScanEntries]
    exact idxEntries_ifd_data_length le _ _ (by omega)
  have hex : ∃ e ∈ rootScanEntries le c o, isPtrTag e = true ∧ subFatal c le e = true := by
    obtain ⟨x, hx, hxx⟩ := List.any_eq_true.mp hbad
    rw [ptrEntries, List.mem_filter] at hx
    exact ⟨x, hx.1, hx.2, hxx⟩
  obtain ⟨err, es', ws', hsub⟩ := sub_ifd_loop_err le c (rootScanEntries le c o) h4 hex
    ([] ++ (dirDecodedPair le c o).1) (ws ++ (dirDecodedPair le c o).2)
  rw [parse_ifds, parse_exif_ifd_ok le c o [] ws h1 (by omega)]
  dsimp only
  rw [listSlice_eq_some c o 2 (by omega)]
  dsimp only
  rw [read_u16_slice le c o (by omega)]
  dsimp only
  rw [listSlice_eq_some c (o + 2) (readU16at le c o * 12 + 4) (by omega)]
  dsimp only
  rw [parse_ifd_root le _ _ hslice]
  dsimp only
  rw [show idxEntries le ((c.drop (o + 2)).take (readU16at le c o * 12 + 4))
      (readU16at le c o) 0 = rootScanEntries le c o from rfl, hsub]
  exact ⟨err, ws', rfl⟩

theorem parse_ifds_success (g : ExifEntry → List ExifEntry → String) (le : Bool)
    (o : Nat) (c : List Nat) (ws : List String) (h1 : o + 2 ≤ c.length)
    (h2 : o + 2 + readU16at le c o * 12 + 4 ≤ c.length)
    (hgood : (ptrEntries le c o).any (subFatal c le) = false) :
    parse_ifds g le o c ws =
      .ok (.ok (post_loop g (mergedSpec le c o) (mergedSpec le c o)),
        ws ++ (dirDecodedPair le c o).2 ++
          ((ptrEntries le c o).map fun e => (dirDecodedPair le c (entryOffset e)).2).flatten) := by
  have hslice : ((c.drop (o + 2)).take (readU16at le c o * 12 + 4)).length
      = readU16at le c o * 12 + 4 := slice_length c (o + 2) _ (by omega)
  have h4 : ∀ e ∈ rootScanEntries le c o, e.ifd_data.length = 4 := by
    rw [rootScanEntries]
    exact idxEntries_ifd_data_length le _ _ (by omega)
  have hok : ∀ e ∈ rootScanEntries le c o, isPtrTag e = true → subFatal c le e = false := by
    intro e he hp
    have := List.any_eq_false.mp hgood e (by rw [ptrEntries, List.mem_filter]; exact ⟨he, hp⟩)
    simpa using this
  rw [parse_ifds, parse_exif_ifd_ok le c o [] ws h1 (by omega)]
  dsimp only
  rw [listSlice_eq_some c o 2 (by omega)]
  dsimp only
  rw [read_u16_slice le c o (by omega)]
  dsimp only
  rw [listSlice_eq_some c (o + 2) (readU16at le c o * 12 + 4) (by omega)]
  dsimp only
  rw [parse_ifd_root le _ _ hslice]
  dsimp only
  rw [show idxEntries le ((c.drop (o + 2)).take (readU16at le c o * 12 + 4))
      (readU16at le c o) 0 = rootScanEntries le c o from rfl]
  rw [sub_ifd_loop_ok le c (rootScanEntries le c o) h4 hok]
  dsimp only
  rw [show (rootScanEntries le c o).filter isPtrTag = ptrEntries le c o from rfl]
  rw [show ([] : List ExifEntry) ++ (dirDecodedPair le c o).1 = (dirDecodedPair le c o).1 from rfl]
  rw [show (dirDecodedPair le c o).1 ++
      ((ptrEntries le c o).map fun e => (dirDecodedPair le c (entryOffset e)).1).flatten
      = mergedSpec le c o from rfl]

theorem parse_ifds_main (g : ExifEntry → List ExifEntry → String) (le : Bool)
    (o : Nat) (c : List Nat) (ws : List String) :
    (∃ r, parse_ifds g le o c ws = .ok r) ∧
    ((∃ err ws', parse_ifds g le o c ws = .ok (.error err, ws')) ↔ ifdsFatal le c o = true) := by
  by_cases hc1 : c.length < o + 2
  · rw [parse_ifds_count_trunc g le o c ws hc1]
    refine ⟨⟨_, rfl⟩, fun _ => ?_, fun _ => ⟨_, _, rfl⟩⟩
    simp only [ifdsFatal, Bool.or_eq_true, decide_eq_true_eq]
    exact Or.inl (Or.inl hc1)
  · by_cases hc2 : c.length < o + 2 + readU16at le c o * 12
    · rw [parse_ifds_listing_trunc g le o c ws (by omega) hc2]
      refine ⟨⟨_, rfl⟩, fun _ => ?_, fun _ => ⟨_, _, rfl⟩⟩
      simp only [ifdsFatal, Bool.or_eq_true, decide_eq_true_eq]
      exact Or.inl (Or.inr (by omega))
    · by_cases hc3 : c.length < o + 2 + readU16at le c o * 12 + 4
      · rw [parse_ifds_next_trunc g le o c ws (by omega) (by omega) hc3]
        refine ⟨⟨_, rfl⟩, fun _ => ?_, fun _ => ⟨_, _, rfl⟩⟩
        simp only [ifdsFatal, Bool.or_eq_true, decide_eq_true_eq]
        exact Or.inl (Or.inr (by omega))
      · by_cases hany : (ptrEntries le c o).any (subFatal c le) = true
        · obtain ⟨err, ws', h⟩ := parse_ifds_sub_err g le o c ws (by omega) (by omega) hany
          rw [h]
          refine ⟨⟨_, rfl⟩, fun _ => ?_, fun _ => ⟨_, _, rfl⟩⟩
          simp only [ifdsFatal, Bool.or_eq_true]
          exact Or.inr hany
        · have hany' : (ptrEntries le c o).any (subFatal c le) = false := by
            simpa using hany
          rw [parse_ifds_success g le o c ws (by omega) (by omega) hany']
          refine ⟨⟨_, rfl⟩, ?_, ?_⟩
          · rintro ⟨err, ws', h⟩
            simp at h
          · intro h
            rw [ifdsFatal] at h
            simp only [Bool.or_eq_true, decide_eq_true_eq] at h
            rcases h with (h | h) | h
            · omega
            · omega
            · rw [hany'] at h
              cases h

/-! ### Claim theorems: the directory walk -/

/-- C1: the whole parse aborts with a fatal error exactly in the
spec's cases — buffer under 8 bytes, unrecognized preamble (the error
then carrying the offending bytes), a directory's entry count or
implied listing length past buffer end (for the root including its
trailing next-directory offset), or a discovered sub-directory pointer
resolving past buffer end — and `parse_tiff` never faults, so a
payload-offset window falling outside the buffer (which `tiffFatal`
ignores) can only drop its entry, never fail the parse. -/
theorem parse_tiff_fatal_characterization (c : List Nat) (ws : List String)
    (g : ExifEntry → List ExifEntry → String) :
    (∃ r, parse_tiff g c ws = .ok r) ∧
    ((∃ err ws', parse_tiff g c ws = .ok (.error err, ws')) ↔ tiffFatal c = true) ∧
    (8 ≤ c.length → preLE c = false → preBE c = false →
      parse_tiff g c ws = .ok (.error (.TiffBadPreamble (preambleMsg c)), ws)) := by
  by_cases h8 : c.length < 8
  · rw [parse_tiff, if_pos h8]
    refine ⟨⟨_, rfl⟩, ⟨fun _ => ?_, fun _ => ⟨_, _, rfl⟩⟩, fun h _ _ => by omega⟩
    simp [tiffFatal, h8]
  · by_cases hle : preLE c = true
    · rw [parse_tiff, if_neg h8, if_pos hle, read_u32_slice true c 4 (by omega)]
      dsimp only
      obtain ⟨htot, hiff⟩ := parse_ifds_main g true (readU32at true c 4) c ws
      have heq : tiffFatal c = ifdsFatal true c (readU32at true c 4) := by
        rw [tiffFatal, if_pos hle]
        simp [h8]
      refine ⟨htot, ?_, fun _ hfalse _ => by rw [hle] at hfalse; cases hfalse⟩
      rw [heq]
      exact hiff
    · by_cases hbe : preBE c = true
      · rw [parse_tiff, if_neg h8, if_neg (by simpa using hle),
          if_pos hbe, read_u32_slice false c 4 (by omega)]
        dsimp only
        obtain ⟨htot, hiff⟩ := parse_ifds_main g false (readU32at false c 4) c ws
        have heq : tiffFatal c = ifdsFatal false c (readU32at false c 4) := by
          rw [tiffFatal, if_neg (by simpa using hle), if_pos hbe]
          simp [h8]
        refine ⟨htot, ?_, fun _ _ hfalse => by rw [hbe] at hfalse; cases hfalse⟩
        rw [heq]
        exact hiff
      · rw [parse_tiff, if_neg h8, if_neg (by simpa using hle), if_neg (by simpa using hbe)]
        refine ⟨⟨_, rfl⟩, ⟨fun _ => ?_, fun _ => ⟨_, _, rfl⟩⟩, fun _ _ _ => rfl⟩
        rw [tiffFatal, if_neg (by simpa using hle), if_neg (by simpa using hbe)]
        simp

/-- Witness for C1: a buffer of 8 bytes with an unrecognized preamble
is rejected with the error carrying the offending bytes. -/
theorem parse_tiff_fatal_characterization_witness :
    8 ≤ ([0, 1, 2, 3, 4, 5, 6, 7] : List Nat).length ∧
    preLE [0, 1, 2, 3, 4, 5, 6, 7] = false ∧ preBE [0, 1, 2, 3, 4, 5, 6, 7] = false ∧
    parse_tiff postId [0, 1, 2, 3, 4, 5, 6, 7] [] =
      .ok (.error (.TiffBadPreamble (preambleMsg [0, 1, 2, 3, 4, 5, 6, 7])), []) :=
  ⟨by decide, rfl, rfl,
    (parse_tiff_fatal_characterization [0, 1, 2, 3, 4, 5, 6, 7] [] postId).2.2
      (by decide) rfl rfl⟩

theorem ifdsFatal_false_elim (le : Bool) (c : List Nat) (o : Nat)
    (h : ifdsFatal le c o = false) :
    o + 2 + readU16at le c o * 12 + 4 ≤ c.length ∧
    (ptrEntries le c o).any (subFatal c le) = false := by
  rw [ifdsFatal] at h
  simp only [Bool.or_eq_false_iff, decide_eq_false_iff_not] at h
  exact ⟨by omega, h.2⟩

theorem post_loop_eq_map (g : ExifEntry → List ExifEntry → String) (copy : List ExifEntry) :
    ∀ l, post_loop g copy l = l.map fun e => exif_postprocessing g e copy := by
  intro l
  induction l with
  | nil => rfl
  | cons e rest ih => rw [post_loop, List.map_cons, ih]

theorem post_loop_calls_eq_map (copy : List ExifEntry) :
    ∀ l, post_loop_calls copy l = l.map fun e => (e, copy) := by
  intro l
  induction l with
  | nil => rfl
  | cons e rest ih => rw [post_loop_calls, List.map_cons, ih]

/-- C5: on a non-fatal walk, every raw root entry carrying the Exif or
GPS sub-directory pointer tag is followed in discovery order, each
sub-directory parse folding into the same accumulator: before
postprocessing, the entry list is exactly the root directory's decoded
entries followed by the concatenation, in discovery order, of the
decoded entries of the directory at each matched pointer's offset,
each directory's internal order preserved. -/
theorem subdirectory_walk_order (g : ExifEntry → List ExifEntry → String) (le : Bool)
    (o : Nat) (c : List Nat) (ws : List String) (h : ifdsFatal le c o = false) :
    ∃ ws', parse_ifds g le o c ws =
      .ok (.ok (post_loop g (mergedSpec le c o) (mergedSpec le c o)), ws') ∧
      mergedSpec le c o = (dirDecodedPair le c o).1 ++
        ((ptrEntries le c o).map fun e => (dirDecodedPair le c (entryOffset e)).1).flatten := by
  obtain ⟨hlen, hany⟩ := ifdsFatal_false_elim le c o h
  exact ⟨_, parse_ifds_success g le o c ws (by omega) (by omega) hany, rfl⟩

/-- Witness for C5: the concrete buffer whose root directory holds an
Exif sub-directory pointer followed by a one-entry sub-directory. -/
theorem subdirectory_walk_order_witness :
    ifdsFatal true bufSub 8 = false ∧
    (∃ ws', parse_ifds postId true 8 bufSub [] =
      .ok (.ok (post_loop postId (mergedSpec true bufSub 8) (mergedSpec true bufSub 8)), ws') ∧
      mergedSpec true bufSub 8 = (dirDecodedPair true bufSub 8).1 ++
        ((ptrEntries true bufSub 8).map fun e => (dirDecodedPair true bufSub (entryOffset e)).1).flatten) :=
  ⟨rfl, subdirectory_walk_order postId true 8 bufSub [] rfl⟩

/-- C9: on a non-fatal walk the postprocessing collaborator is invoked
exactly once per decoded entry, in accumulation order — the final list
is the map of the collaborator over the merged accumulator — and every
invocation receives the complete merged list read-only together with
the one entry processed, while only that entry's readable string may
change. -/
theorem postprocessing_once_per_entry (g : ExifEntry → List ExifEntry → String) (le : Bool)
    (o : Nat) (c : List Nat) (ws : List String) (h : ifdsFatal le c o = false) :
    ∃ ws', parse_ifds g le o c ws =
      .ok (.ok ((mergedSpec le c o).map fun e => exif_postprocessing g e (mergedSpec le c o)), ws') ∧
    post_loop_calls (mergedSpec le c o) (mergedSpec le c o) =
      (mergedSpec le c o).map (fun e => (e, mergedSpec le c o)) ∧
    ∀ e all, exif_postprocessing g e all = { e with value_more_readable := g e all } := by
  obtain ⟨hlen, hany⟩ := ifdsFatal_false_elim le c o h
  refine ⟨ws ++ (dirDecodedPair le c o).2 ++
      ((ptrEntries le c o).map fun e => (dirDecodedPair le c (entryOffset e)).2).flatten,
    ?_, post_loop_calls_eq_map _ _, fun e all => rfl⟩
  rw [← post_loop_eq_map g (mergedSpec le c o) (mergedSpec le c o)]
  exact parse_ifds_success g le o c ws (by omega) (by omega) hany

/-- Witness for C9 at the concrete sub-directory buffer. -/
theorem postprocessing_once_per_entry_witness :
    ifdsFatal true bufSub 8 = false ∧
    (∃ ws', parse_ifds postId true 8 bufSub [] =
      .ok (.ok ((mergedSpec true bufSub 8).map fun e =>
        exif_postprocessing postId e (mergedSpec true bufSub 8)), ws') ∧
    post_loop_calls (mergedSpec true bufSub 8) (mergedSpec true bufSub 8) =
      (mergedSpec true bufSub 8).map (fun e => (e, mergedSpec true bufSub 8)) ∧
    ∀ e all, exif_postprocessing postId e all = { e with value_more_readable := postId e all }) :=
  ⟨rfl, postprocessing_once_per_entry postId true 8 bufSub [] rfl⟩

/-- Witness for C10 at a concrete one-element U16 value. -/
theorem to_i64_to_f64_characterization_witness :
    ((TagValue.U16 [7]).to_i64 0).isSome ∧ ((TagValue.U16 [7]).to_f64 0).isSome ∧
    (TagValue.U16 [7]).to_i64 0 = some 7 ∧ (TagValue.U16 [7]).to_f64 0 = some (.ofInt 7) :=
  ⟨(to_i64_to_f64_characterization (.U16 [7]) 0).1.mpr (by decide),
   (to_i64_to_f64_characterization (.U16 [7]) 0).2.1.mpr (by decide),
   by decide,
   (to_i64_to_f64_characterization (.U16 [7]) 0).2.2 7 (by decide)⟩
